import Mathlib

/-!
Verification of the pagination-aggregation layer of `bybit/asset/asset.go`.

The five exported operations (`GetCoinExchangeRecords`, `GetDeliveryRecords`,
`GetSessionSettlementRecords`, `GetAssetInfo`, `GetAllCoinsBalance`) are
shallowly embedded as Lean functions.  The transport client (an external
collaborator) is modelled as a finite oracle: a list of replies, one consumed
per `client.Get` call.  Each reply is either a transport error or a generic
value; the Go code re-marshals the generic value to bytes and unmarshals those
bytes into the endpoint-specific response struct, which we model at the JSON
value level with Go `encoding/json` semantics (missing field or JSON null
leaves the zero value; a type mismatch is an error; unknown keys are ignored;
for duplicate keys the last occurrence wins).

Mutation of the caller-supplied request through its pointer is made explicit:
every embedded operation returns, besides its outcome, the final state of the
request and the trace of parameter mappings sent on each performed `Get`.
An exhausted oracle while the loop still wants another page is reported as
`Outcome.running`: the Go loop would perform yet another fetch.
-/

namespace CryptoSDK

/-- JSON values, the canonical byte form of the page envelope modelled at the
value level.  Numbers are restricted to integers, which covers every numeric
field of the envelope (`retCode`, timestamps). -/
inductive Json where
  | null : Json
  | bool (b : Bool) : Json
  | num (n : Int) : Json
  | str (s : String) : Json
  | arr (elems : List Json) : Json
  | obj (fields : List (String × Json)) : Json

/-- `client.Params` from the Go client package: a mapping of string keys to
string values, represented as an association list whose build order follows
the program order of the assignments in the source. -/
abbrev Params := List (String × String)

/-- Value held at a key, if any (keys written by the builders are distinct). -/
def Params.get? (ps : Params) (k : String) : Option String :=
  (ps.find? (fun kv => kv.fst == k)).map (fun kv => kv.snd)

/-- Remove a key: used to state that two mappings agree outside one key. -/
def Params.eraseKey (ps : Params) (k : String) : Params :=
  ps.filter (fun kv => kv.fst != k)

/-- Go map assignment `m[k] = v`: overwrite the key if present, else add it. -/
def Params.set (ps : Params) (k v : String) : Params :=
  if ps.any (fun kv => kv.fst == k) then
    ps.map (fun kv => if kv.fst == k then (k, v) else kv)
  else
    ps ++ [(k, v)]

/-- Conditional assignment `if req.F != nil { m[k] = *req.F }`. -/
def optParam (k : String) (v : Option String) : Params :=
  match v with
  | some s => [(k, s)]
  | none => []

/-- `strconv.Itoa`: base-10 decimal formatting of an integer. -/
def goItoa (n : Int) : String :=
  (if n < 0 then "-" else "") ++ (Nat.toDigits 10 n.natAbs).asString

/-- `strconv.FormatInt(n, 10)`: base-10 decimal formatting of an int64. -/
def goFormatInt10 (n : Int) : String := goItoa n

/-! ### Request and response structures

The request/response struct declarations live in a file of the repository
that is not under `src/`; their fields and JSON tags are reconstructed from
their uses in `asset.go` and from the wire envelope
`{retCode, retMsg, result: {<recordsField>, nextPageCursor}}` of the spec.
Records are opaque to the aggregator (it only concatenates them), so record
values are carried as raw JSON values. -/

/-- Request of `GetCoinExchangeRecords`; all four fields are optional
(`nil`-able pointers in Go). -/
structure GetCoinExchangeRecordsRequest where
  FromCoin : Option String
  ToCoin : Option String
  Limit : Option Int
  Cursor : Option String
  deriving DecidableEq

/-- Result member of the coin-exchange envelope: records under `orderBody`
plus the continuation cursor. -/
structure CoinExchangeResult where
  OrderBody : List Json
  NextPageCursor : String

/-- Envelope of one coin-exchange page, and also the aggregated response. -/
structure GetCoinExchangeRecordsResponse where
  RetCode : Int
  RetMsg : String
  Result : CoinExchangeResult

/-- Request of `GetDeliveryRecords`: required `Category`, the rest optional. -/
structure GetDeliveryRecordRequest where
  Category : String
  Symbol : Option String
  StartTime : Option Int
  EndTime : Option Int
  ExpDate : Option String
  Limit : Option Int
  Cursor : Option String
  deriving DecidableEq

/-- Result member of the delivery envelope: records under `list`. -/
structure DeliveryResult where
  RecordList : List Json
  NextPageCursor : String

/-- Envelope of one delivery page, and also the aggregated response. -/
structure GetDeliveryRecordResponse where
  RetCode : Int
  RetMsg : String
  Result : DeliveryResult

/-- Request of `GetSessionSettlementRecords`: required `Category`, rest
optional. -/
structure GetSessionSettlementRecordRequest where
  Category : String
  Symbol : Option String
  StartTime : Option Int
  EndTime : Option Int
  Limit : Option Int
  Cursor : Option String
  deriving DecidableEq

/-- Result member of the settlement envelope: records under `list`. -/
structure SettlementResult where
  RecordList : List Json
  NextPageCursor : String

/-- Envelope of one settlement page, and also the aggregated response. -/
structure GetSessionSettlementRecordResponse where
  RetCode : Int
  RetMsg : String
  Result : SettlementResult

/-- Request of `GetAssetInfo`: required `AccountType`, optional `Coin`. -/
structure GetAssetInfoRequest where
  AccountType : String
  Coin : Option String
  deriving DecidableEq

/-- Response of `GetAssetInfo`.  Modelled from the spec: the endpoint-specific
`result` member (SPOT asset info) is not declared under `src/`, so it is kept
opaque as a raw JSON value. -/
structure GetAssetInfoResponse where
  RetCode : Int
  RetMsg : String
  Result : Json

/-- Request of `GetAllCoinsBalance`: required `AccountType`, rest optional. -/
structure GetAllCoinsBalanceRequest where
  MemberID : Option String
  AccountType : String
  Coin : Option String
  WithBonus : Option Int
  deriving DecidableEq

/-- Response of `GetAllCoinsBalance`.  Modelled from the spec: the
endpoint-specific `result` member (balance entries) is not declared under
`src/`, so it is kept opaque as a raw JSON value. -/
structure GetAllCoinsBalanceResponse where
  RetCode : Int
  RetMsg : String
  Result : Json

/-! ### Query builders

Each builder mirrors, assignment by assignment and in program order, the
construction of `queryParams` in the corresponding Go function. -/

/-- Parameter construction of `GetCoinExchangeRecords` (one loop iteration). -/
def coinExchangeParams (req : GetCoinExchangeRecordsRequest) : Params :=
  optParam "fromCoin" req.FromCoin ++ optParam "toCoin" req.ToCoin ++
    optParam "limit" (req.Limit.map goItoa) ++ optParam "cursor" req.Cursor

/-- Parameter construction of `GetDeliveryRecords` (one loop iteration). -/
def deliveryParams (req : GetDeliveryRecordRequest) : Params :=
  [("category", req.Category)] ++ optParam "symbol" req.Symbol ++
    optParam "startTime" (req.StartTime.map goFormatInt10) ++
    optParam "endTime" (req.EndTime.map goFormatInt10) ++
    optParam "expDate" req.ExpDate ++ optParam "limit" (req.Limit.map goItoa) ++
    optParam "cursor" req.Cursor

/-- Parameter construction of `GetSessionSettlementRecords` (done once,
before the loop). -/
def settlementParams (req : GetSessionSettlementRecordRequest) : Params :=
  [("category", req.Category)] ++ optParam "symbol" req.Symbol ++
    optParam "startTime" (req.StartTime.map goFormatInt10) ++
    optParam "endTime" (req.EndTime.map goFormatInt10) ++
    optParam "limit" (req.Limit.map goItoa) ++ optParam "cursor" req.Cursor

/-- Parameter construction of `GetAssetInfo`. -/
def assetInfoParams (req : GetAssetInfoRequest) : Params :=
  [("accountType", req.AccountType)] ++ optParam "coin" req.Coin

/-- Parameter construction of `GetAllCoinsBalance`. -/
def allCoinsBalanceParams (req : GetAllCoinsBalanceRequest) : Params :=
  optParam "memberId" req.MemberID ++ [("accountType", req.AccountType)] ++
    optParam "coin" req.Coin ++ optParam "withBonus" (req.WithBonus.map goItoa)

/-! ### Transport oracle and the marshal step -/

/-- The generic value returned by `client.Get`.  Per the spec's transport
boundary it is normally a decodable (re-marshalable) value; the
`unmarshalable` constructor keeps the `json.Marshal` error path of the source
representable. -/
inductive GenericValue where
  | json (j : Json) : GenericValue
  | unmarshalable (e : String) : GenericValue

/-- A finite transport oracle: the replies of successive `client.Get` calls. -/
abbrev Transport := List (Except String GenericValue)

/-- `json.Marshal(response)`: succeeds on JSON-representable values. -/
def marshalGeneric : GenericValue → Except String Json
  | .json j => .ok j
  | .unmarshalable e => .error e

/-! ### `encoding/json` unmarshalling of the page envelopes -/

/-- Field access of Go `encoding/json` object decoding: for duplicate keys
the last occurrence wins; a missing key leaves the target's zero value. -/
def objLookup (fields : List (String × Json)) (k : String) : Option Json :=
  (fields.reverse.find? (fun kv => kv.fst == k)).map (fun kv => kv.snd)

/-- Unmarshal a field into a Go `int`: absent or null leaves zero, a number
is taken, anything else is a type error. -/
def decGoInt : Option Json → Except String Int
  | none => .ok 0
  | some .null => .ok 0
  | some (.num n) => .ok n
  | some _ => .error "json: cannot unmarshal value into Go value of type int"

/-- Unmarshal a field into a Go `string`. -/
def decGoString : Option Json → Except String String
  | none => .ok ""
  | some .null => .ok ""
  | some (.str s) => .ok s
  | some _ => .error "json: cannot unmarshal value into Go value of type string"

/-- Unmarshal a field into a Go slice of records (records stay opaque). -/
def decGoList : Option Json → Except String (List Json)
  | none => .ok []
  | some .null => .ok []
  | some (.arr xs) => .ok xs
  | some _ => .error "json: cannot unmarshal value into Go slice"

/-- Unmarshal the `result` member of the coin-exchange envelope. -/
def decCoinExchangeResult : Option Json → Except String CoinExchangeResult
  | none => .ok ⟨[], ""⟩
  | some .null => .ok ⟨[], ""⟩
  | some (.obj fs) => do
      let rb ← decGoList (objLookup fs "orderBody")
      let c ← decGoString (objLookup fs "nextPageCursor")
      .ok ⟨rb, c⟩
  | some _ => .error "json: cannot unmarshal value into Go struct CoinExchangeResult"

/-- `json.Unmarshal(data, &GetCoinExchangeRecordsResponse{...})`. -/
def unmarshalCoinExchange : Json → Except String GetCoinExchangeRecordsResponse
  | .null => .ok ⟨0, "", ⟨[], ""⟩⟩
  | .obj fs => do
      let rc ← decGoInt (objLookup fs "retCode")
      let rm ← decGoString (objLookup fs "retMsg")
      let res ← decCoinExchangeResult (objLookup fs "result")
      .ok ⟨rc, rm, res⟩
  | _ => .error "json: cannot unmarshal value into Go struct GetCoinExchangeRecordsResponse"

/-- Unmarshal the `result` member of the delivery envelope (records under
key `list`). -/
def decDeliveryResult : Option Json → Except String DeliveryResult
  | none => .ok ⟨[], ""⟩
  | some .null => .ok ⟨[], ""⟩
  | some (.obj fs) => do
      let rb ← decGoList (objLookup fs "list")
      let c ← decGoString (objLookup fs "nextPageCursor")
      .ok ⟨rb, c⟩
  | some _ => .error "json: cannot unmarshal value into Go struct DeliveryResult"

/-- `json.Unmarshal(data, &GetDeliveryRecordResponse{...})`. -/
def unmarshalDelivery : Json → Except String GetDeliveryRecordResponse
  | .null => .ok ⟨0, "", ⟨[], ""⟩⟩
  | .obj fs => do
      let rc ← decGoInt (objLookup fs "retCode")
      let rm ← decGoString (objLookup fs "retMsg")
      let res ← decDeliveryResult (objLookup fs "result")
      .ok ⟨rc, rm, res⟩
  | _ => .error "json: cannot unmarshal value into Go struct GetDeliveryRecordResponse"

/-- Unmarshal the `result` member of the settlement envelope (records under
key `list`). -/
def decSettlementResult : Option Json → Except String SettlementResult
  | none => .ok ⟨[], ""⟩
  | some .null => .ok ⟨[], ""⟩
  | some (.obj fs) => do
      let rb ← decGoList (objLookup fs "list")
      let c ← decGoString (objLookup fs "nextPageCursor")
      .ok ⟨rb, c⟩
  | some _ => .error "json: cannot unmarshal value into Go struct SettlementResult"

/-- `json.Unmarshal(data, &GetSessionSettlementRecordResponse{...})`. -/
def unmarshalSettlement : Json → Except String GetSessionSettlementRecordResponse
  | .null => .ok ⟨0, "", ⟨[], ""⟩⟩
  | .obj fs => do
      let rc ← decGoInt (objLookup fs "retCode")
      let rm ← decGoString (objLookup fs "retMsg")
      let res ← decSettlementResult (objLookup fs "result")
      .ok ⟨rc, rm, res⟩
  | _ => .error "json: cannot unmarshal value into Go struct GetSessionSettlementRecordResponse"

/-- `json.Unmarshal(data, &GetAssetInfoResponse{...})`; the `result` member
is kept opaque (its struct is not under `src/`). -/
def unmarshalAssetInfo : Json → Except String GetAssetInfoResponse
  | .null => .ok ⟨0, "", .null⟩
  | .obj fs => do
      let rc ← decGoInt (objLookup fs "retCode")
      let rm ← decGoString (objLookup fs "retMsg")
      .ok ⟨rc, rm, (objLookup fs "result").getD .null⟩
  | _ => .error "json: cannot unmarshal value into Go struct GetAssetInfoResponse"

/-- `json.Unmarshal(data, &GetAllCoinsBalanceResponse{...})`; the `result`
member is kept opaque (its struct is not under `src/`). -/
def unmarshalAllCoinsBalance : Json → Except String GetAllCoinsBalanceResponse
  | .null => .ok ⟨0, "", .null⟩
  | .obj fs => do
      let rc ← decGoInt (objLookup fs "retCode")
      let rm ← decGoString (objLookup fs "retMsg")
      .ok ⟨rc, rm, (objLookup fs "result").getD .null⟩
  | _ => .error "json: cannot unmarshal value into Go struct GetAllCoinsBalanceResponse"

/-! ### The embedded operations -/

/-- Result of a run: `running` means the oracle was exhausted while the loop
still wanted another page (the Go loop would issue another fetch);
`done r` is the Go return value, `r` being response-or-error. -/
inductive Outcome (ρ : Type) where
  | running : Outcome ρ
  | done (r : Except String ρ) : Outcome ρ

/-- Instrumented result of an embedded operation: its outcome, the final
state of the caller-supplied request (Go passes a pointer), and the parameter
mapping sent on each performed `client.Get`, in call order. -/
structure RunOut (ρ Req : Type) where
  outcome : Outcome ρ
  finalReq : Req
  calls : List Params

/-- The `for` loop of `GetCoinExchangeRecords`, lines 37-77 of `asset.go`. -/
def coinExLoop : Transport → GetCoinExchangeRecordsRequest → List Json →
    RunOut GetCoinExchangeRecordsResponse GetCoinExchangeRecordsRequest
  | [], req, _ => ⟨.running, req, []⟩
  | reply :: rest, req, allRecords =>
    let queryParams := coinExchangeParams req
    match reply with
    | .error e =>
        ⟨.done (.error ("error fetching coin exchange records: " ++ e)), req, [queryParams]⟩
    | .ok gv =>
      match marshalGeneric gv with
      | .error e => ⟨.done (.error e), req, [queryParams]⟩
      | .ok data =>
        match unmarshalCoinExchange data with
        | .error e =>
            ⟨.done (.error ("error parsing coin exchange records response: " ++ e)), req,
              [queryParams]⟩
        | .ok page =>
          let acc := allRecords ++ page.Result.OrderBody
          if page.Result.NextPageCursor = "" then
            ⟨.done (.ok ⟨0, "OK", ⟨acc, ""⟩⟩), req, [queryParams]⟩
          else
            let req2 := { req with Cursor := some page.Result.NextPageCursor }
            let out := coinExLoop rest req2 acc
            ⟨out.outcome, out.finalReq, queryParams :: out.calls⟩

/-- `GetCoinExchangeRecords`, lines 33-83 of `asset.go`. -/
def GetCoinExchangeRecords (req : GetCoinExchangeRecordsRequest) (replies : Transport) :
    RunOut GetCoinExchangeRecordsResponse GetCoinExchangeRecordsRequest :=
  coinExLoop replies req []

/-- The `for` loop of `GetDeliveryRecords`, lines 88-135 of `asset.go`. -/
def deliveryLoop : Transport → GetDeliveryRecordRequest → List Json →
    RunOut GetDeliveryRecordResponse GetDeliveryRecordRequest
  | [], req, _ => ⟨.running, req, []⟩
  | reply :: rest, req, allRecords =>
    let queryParams := deliveryParams req
    match reply with
    | .error e =>
        ⟨.done (.error ("error fetching delivery records: " ++ e)), req, [queryParams]⟩
    | .ok gv =>
      match marshalGeneric gv with
      | .error e => ⟨.done (.error e), req, [queryParams]⟩
      | .ok data =>
        match unmarshalDelivery data with
        | .error e =>
            ⟨.done (.error ("error parsing delivery records response: " ++ e)), req,
              [queryParams]⟩
        | .ok page =>
          let acc := allRecords ++ page.Result.RecordList
          if page.Result.NextPageCursor = "" then
            ⟨.done (.ok ⟨0, "OK", ⟨acc, ""⟩⟩), req, [queryParams]⟩
          else
            let req2 := { req with Cursor := some page.Result.NextPageCursor }
            let out := deliveryLoop rest req2 acc
            ⟨out.outcome, out.finalReq, queryParams :: out.calls⟩

/-- `GetDeliveryRecords`, lines 84-142 of `asset.go`. -/
def GetDeliveryRecords (req : GetDeliveryRecordRequest) (replies : Transport) :
    RunOut GetDeliveryRecordResponse GetDeliveryRecordRequest :=
  deliveryLoop replies req []

/-- The `for` loop of `GetSessionSettlementRecords`, lines 166-190 of
`asset.go`.  The parameter mapping itself is the loop state: the cursor is
advanced by Go map assignment, the request is never touched. -/
def settlementLoop : Transport → Params → List Json →
    Outcome GetSessionSettlementRecordResponse × List Params
  | [], _, _ => (.running, [])
  | reply :: rest, queryParams, allRecords =>
    match reply with
    | .error e =>
        (.done (.error ("error fetching session settlement records: " ++ e)), [queryParams])
    | .ok gv =>
      match marshalGeneric gv with
      | .error e => (.done (.error e), [queryParams])
      | .ok data =>
        match unmarshalSettlement data with
        | .error e =>
            (.done (.error ("error parsing session settlement records response: " ++ e)),
              [queryParams])
        | .ok page =>
          let acc := allRecords ++ page.Result.RecordList
          if page.Result.NextPageCursor = "" then
            (.done (.ok ⟨0, "OK", ⟨acc, ""⟩⟩), [queryParams])
          else
            let qp2 := queryParams.set "cursor" page.Result.NextPageCursor
            let out := settlementLoop rest qp2 acc
            (out.fst, queryParams :: out.snd)

/-- `GetSessionSettlementRecords`, lines 143-198 of `asset.go`. -/
def GetSessionSettlementRecords (req : GetSessionSettlementRecordRequest)
    (replies : Transport) :
    RunOut GetSessionSettlementRecordResponse GetSessionSettlementRecordRequest :=
  let out := settlementLoop replies (settlementParams req) []
  ⟨out.fst, req, out.snd⟩

/-- `GetAssetInfo`, lines 200-222 of `asset.go`: a single fetch, no loop. -/
def GetAssetInfo (req : GetAssetInfoRequest) (reply : Except String GenericValue) :
    RunOut GetAssetInfoResponse GetAssetInfoRequest :=
  let queryParams := assetInfoParams req
  match reply with
  | .error e =>
      ⟨.done (.error ("error fetching asset information: " ++ e)), req, [queryParams]⟩
  | .ok gv =>
    match marshalGeneric gv with
    | .error e => ⟨.done (.error e), req, [queryParams]⟩
    | .ok data =>
      match unmarshalAssetInfo data with
      | .error e =>
          ⟨.done (.error ("error parsing asset information response: " ++ e)), req,
            [queryParams]⟩
      | .ok resp => ⟨.done (.ok resp), req, [queryParams]⟩

/-- `GetAllCoinsBalance`, lines 223-253 of `asset.go`: a single fetch. -/
def GetAllCoinsBalance (req : GetAllCoinsBalanceRequest)
    (reply : Except String GenericValue) :
    RunOut GetAllCoinsBalanceResponse GetAllCoinsBalanceRequest :=
  let queryParams := allCoinsBalanceParams req
  match reply with
  | .error e =>
      ⟨.done (.error ("error fetching all coins balance: " ++ e)), req, [queryParams]⟩
  | .ok gv =>
    match marshalGeneric gv with
    | .error e => ⟨.done (.error e), req, [queryParams]⟩
    | .ok data =>
      match unmarshalAllCoinsBalance data with
      | .error e =>
          ⟨.done (.error ("error parsing all coins balance response: " ++ e)), req,
            [queryParams]⟩
      | .ok resp => ⟨.done (.ok resp), req, [queryParams]⟩

/-! ### Canonical page encodings

To quantify over "a sequence of pages the server serves", each envelope value
is re-encoded as its canonical JSON object; unmarshalling is a left inverse
of this encoding. -/

/-- Canonical JSON form of a coin-exchange page envelope. -/
def encCoinExchange (p : GetCoinExchangeRecordsResponse) : Json :=
  .obj [("retCode", .num p.RetCode), ("retMsg", .str p.RetMsg),
        ("result", .obj [("orderBody", .arr p.Result.OrderBody),
                         ("nextPageCursor", .str p.Result.NextPageCursor)])]

/-- Canonical JSON form of a delivery page envelope. -/
def encDelivery (p : GetDeliveryRecordResponse) : Json :=
  .obj [("retCode", .num p.RetCode), ("retMsg", .str p.RetMsg),
        ("result", .obj [("list", .arr p.Result.RecordList),
                         ("nextPageCursor", .str p.Result.NextPageCursor)])]

/-- Canonical JSON form of a settlement page envelope. -/
def encSettlement (p : GetSessionSettlementRecordResponse) : Json :=
  .obj [("retCode", .num p.RetCode), ("retMsg", .str p.RetMsg),
        ("result", .obj [("list", .arr p.Result.RecordList),
                         ("nextPageCursor", .str p.Result.NextPageCursor)])]

/-- A successful transport reply carrying page `p`. -/
def pageReplyCX (p : GetCoinExchangeRecordsResponse) : Except String GenericValue :=
  .ok (.json (encCoinExchange p))

/-- A successful transport reply carrying page `p`. -/
def pageReplyDL (p : GetDeliveryRecordResponse) : Except String GenericValue :=
  .ok (.json (encDelivery p))

/-- A successful transport reply carrying page `p`. -/
def pageReplySS (p : GetSessionSettlementRecordResponse) : Except String GenericValue :=
  .ok (.json (encSettlement p))

@[simp] theorem unmarshal_encCoinExchange (p : GetCoinExchangeRecordsResponse) :
    unmarshalCoinExchange (encCoinExchange p) = .ok p := by
  obtain ⟨rc, rm, rb, c⟩ := p
  rfl

@[simp] theorem unmarshal_encDelivery (p : GetDeliveryRecordResponse) :
    unmarshalDelivery (encDelivery p) = .ok p := by
  obtain ⟨rc, rm, rb, c⟩ := p
  rfl

@[simp] theorem unmarshal_encSettlement (p : GetSessionSettlementRecordResponse) :
    unmarshalSettlement (encSettlement p) = .ok p := by
  obtain ⟨rc, rm, rb, c⟩ := p
  rfl

/-! ### Loop unrolling over a run of good pages -/

/-- State of the caller's request after the loop of `GetCoinExchangeRecords`
has consumed the given pages, each with a non-empty cursor. -/
def reqAfterCX : List GetCoinExchangeRecordsResponse → GetCoinExchangeRecordsRequest →
    GetCoinExchangeRecordsRequest
  | [], req => req
  | p :: ps, req => reqAfterCX ps { req with Cursor := some p.Result.NextPageCursor }

/-- The parameter mappings sent while `GetCoinExchangeRecords` consumes the
given pages. -/
def paramsTraceCX : List GetCoinExchangeRecordsResponse → GetCoinExchangeRecordsRequest →
    List Params
  | [], _ => []
  | p :: ps, req =>
      coinExchangeParams req ::
        paramsTraceCX ps { req with Cursor := some p.Result.NextPageCursor }

/-- State of the caller's request after the loop of `GetDeliveryRecords`
has consumed the given pages, each with a non-empty cursor. -/
def reqAfterDL : List GetDeliveryRecordResponse → GetDeliveryRecordRequest →
    GetDeliveryRecordRequest
  | [], req => req
  | p :: ps, req => reqAfterDL ps { req with Cursor := some p.Result.NextPageCursor }

/-- The parameter mappings sent while `GetDeliveryRecords` consumes the given
pages. -/
def paramsTraceDL : List GetDeliveryRecordResponse → GetDeliveryRecordRequest → List Params
  | [], _ => []
  | p :: ps, req =>
      deliveryParams req :: paramsTraceDL ps { req with Cursor := some p.Result.NextPageCursor }

/-- State of the parameter mapping after the loop of
`GetSessionSettlementRecords` has consumed the given pages, each with a
non-empty cursor. -/
def qpAfterSS : List GetSessionSettlementRecordResponse → Params → Params
  | [], qp => qp
  | p :: ps, qp => qpAfterSS ps (qp.set "cursor" p.Result.NextPageCursor)

/-- The parameter mappings sent while `GetSessionSettlementRecords` consumes
the given pages. -/
def paramsTraceSS : List GetSessionSettlementRecordResponse → Params → List Params
  | [], _ => []
  | p :: ps, qp => qp :: paramsTraceSS ps (qp.set "cursor" p.Result.NextPageCursor)

theorem coinExLoop_goodFront (front : List GetCoinExchangeRecordsResponse)
    (rest : Transport) (h : ∀ p ∈ front, p.Result.NextPageCursor ≠ "") :
    ∀ (req : GetCoinExchangeRecordsRequest) (acc : List Json),
    coinExLoop (front.map pageReplyCX ++ rest) req acc =
      { outcome := (coinExLoop rest (reqAfterCX front req)
          (acc ++ (front.map (fun p => p.Result.OrderBody)).flatten)).outcome,
        finalReq := (coinExLoop rest (reqAfterCX front req)
          (acc ++ (front.map (fun p => p.Result.OrderBody)).flatten)).finalReq,
        calls := paramsTraceCX front req ++
          (coinExLoop rest (reqAfterCX front req)
            (acc ++ (front.map (fun p => p.Result.OrderBody)).flatten)).calls } := by
  induction front with
  | nil => intro req acc; simp [reqAfterCX, paramsTraceCX]
  | cons p ps ih =>
    intro req acc
    have hp : p.Result.NextPageCursor ≠ "" := h p (List.mem_cons_self p ps)
    have hps : ∀ q ∈ ps, q.Result.NextPageCursor ≠ "" :=
      fun q hq => h q (List.mem_cons_of_mem p hq)
    simp only [List.map_cons, List.cons_append, coinExLoop, pageReplyCX, marshalGeneric,
      unmarshal_encCoinExchange, if_neg hp, List.append_eq]
    rw [ih hps]
    simp [reqAfterCX, paramsTraceCX, List.append_assoc]

theorem deliveryLoop_goodFront (front : List GetDeliveryRecordResponse)
    (rest : Transport) (h : ∀ p ∈ front, p.Result.NextPageCursor ≠ "") :
    ∀ (req : GetDeliveryRecordRequest) (acc : List Json),
    deliveryLoop (front.map pageReplyDL ++ rest) req acc =
      { outcome := (deliveryLoop rest (reqAfterDL front req)
          (acc ++ (front.map (fun p => p.Result.RecordList)).flatten)).outcome,
        finalReq := (deliveryLoop rest (reqAfterDL front req)
          (acc ++ (front.map (fun p => p.Result.RecordList)).flatten)).finalReq,
        calls := paramsTraceDL front req ++
          (deliveryLoop rest (reqAfterDL front req)
            (acc ++ (front.map (fun p => p.Result.RecordList)).flatten)).calls } := by
  induction front with
  | nil => intro req acc; simp [reqAfterDL, paramsTraceDL]
  | cons p ps ih =>
    intro req acc
    have hp : p.Result.NextPageCursor ≠ "" := h p (List.mem_cons_self p ps)
    have hps : ∀ q ∈ ps, q.Result.NextPageCursor ≠ "" :=
      fun q hq => h q (List.mem_cons_of_mem p hq)
    simp only [List.map_cons, List.cons_append, deliveryLoop, pageReplyDL, marshalGeneric,
      unmarshal_encDelivery, if_neg hp, List.append_eq]
    rw [ih hps]
    simp [reqAfterDL, paramsTraceDL, List.append_assoc]

theorem settlementLoop_goodFront (front : List GetSessionSettlementRecordResponse)
    (rest : Transport) (h : ∀ p ∈ front, p.Result.NextPageCursor ≠ "") :
    ∀ (qp : Params) (acc : List Json),
    settlementLoop (front.map pageReplySS ++ rest) qp acc =
      ((settlementLoop rest (qpAfterSS front qp)
          (acc ++ (front.map (fun p => p.Result.RecordList)).flatten)).fst,
        paramsTraceSS front qp ++
          (settlementLoop rest (qpAfterSS front qp)
            (acc ++ (front.map (fun p => p.Result.RecordList)).flatten)).snd) := by
  induction front with
  | nil => intro qp acc; simp [qpAfterSS, paramsTraceSS]
  | cons p ps ih =>
    intro qp acc
    have hp : p.Result.NextPageCursor ≠ "" := h p (List.mem_cons_self p ps)
    have hps : ∀ q ∈ ps, q.Result.NextPageCursor ≠ "" :=
      fun q hq => h q (List.mem_cons_of_mem p hq)
    simp only [List.map_cons, List.cons_append, settlementLoop, pageReplySS, marshalGeneric,
      unmarshal_encSettlement, if_neg hp, List.append_eq]
    rw [ih hps]
    simp [qpAfterSS, paramsTraceSS, List.append_assoc]

/-! ### Association-list facts about `Params` -/

theorem find?_map_overwrite (k v : String) (ps : Params)
    (h : ps.any (fun kv => kv.fst == k) = true) :
    (ps.map (fun kv => if kv.fst == k then (k, v) else kv)).find?
      (fun kv => kv.fst == k) = some (k, v) := by
  induction ps with
  | nil => simp at h
  | cons kv ps ih =>
    by_cases hk : (kv.fst == k) = true
    · simp [List.find?, hk]
    · have hk2 : (kv.fst == k) = false := Bool.eq_false_iff.mpr hk
      have h2 : ps.any (fun kv => kv.fst == k) = true := by
        simpa [List.any_cons, hk2] using h
      simpa [List.find?, hk2] using ih h2

theorem find?_absent_append (k v : String) (ps : Params)
    (h : ¬ ps.any (fun kv => kv.fst == k) = true) :
    (ps ++ [(k, v)]).find? (fun kv => kv.fst == k) = some (k, v) := by
  induction ps with
  | nil => simp [List.find?]
  | cons kv ps ih =>
    have hk2 : (kv.fst == k) = false := by
      cases hb : (kv.fst == k) with
      | false => rfl
      | true => exact absurd (by rw [List.any_cons, hb]; rfl) h
    have h2 : ¬ ps.any (fun kv => kv.fst == k) = true := by
      intro hc
      exact h (by rw [List.any_cons, hc, Bool.or_true])
    simpa [List.find?, hk2] using ih h2

/-- Go map assignment makes the key hold the assigned value. -/
theorem Params.get?_set_self (ps : Params) (k v : String) :
    (ps.set k v).get? k = some v := by
  unfold Params.set
  split
  case isTrue h =>
    unfold Params.get?
    rw [find?_map_overwrite k v ps h]
    rfl
  case isFalse h =>
    unfold Params.get?
    rw [find?_absent_append k v ps h]
    rfl

theorem eraseKey_map_overwrite (k v : String) (ps : Params) :
    (ps.map (fun kv => if kv.fst == k then (k, v) else kv)).filter
      (fun kv => kv.fst != k) = ps.filter (fun kv => kv.fst != k) := by
  induction ps with
  | nil => rfl
  | cons kv ps ih =>
    by_cases hk : (kv.fst == k) = true
    · simpa [List.filter, hk, bne] using ih
    · have hk2 : (kv.fst == k) = false := Bool.eq_false_iff.mpr hk
      simpa [List.filter, hk2, bne] using ih

/-- Go map assignment leaves every other key's value unchanged. -/
theorem Params.eraseKey_set_self (ps : Params) (k v : String) :
    (ps.set k v).eraseKey k = ps.eraseKey k := by
  unfold Params.set
  split
  case isTrue _ => exact eraseKey_map_overwrite k v ps
  case isFalse _ =>
    simp [Params.eraseKey, List.filter_append, List.filter, bne]

theorem Params.get?_append (xs ys : Params) (k : String) :
    (xs ++ ys).get? k = ((xs.get? k).orElse fun _ => ys.get? k) := by
  induction xs with
  | nil => simp [Params.get?]
  | cons kv xs ih =>
    by_cases h : (kv.fst == k) = true
    · simp [Params.get?, List.find?, h]
    · have h2 : (kv.fst == k) = false := Bool.eq_false_iff.mpr h
      simpa [Params.get?, List.find?, h2] using ih

@[simp] theorem Params.get?_optParam_same (k : String) (v : Option String) :
    (optParam k v).get? k = v := by
  cases v <;> simp [optParam, Params.get?, List.find?]

@[simp] theorem Params.get?_optParam_ne (k k' : String) (v : Option String)
    (h : (k == k') = false) : (optParam k v).get? k' = none := by
  cases v <;> simp [optParam, Params.get?, List.find?, h]

@[simp] theorem Params.get?_single_same (k v : String) :
    Params.get? [(k, v)] k = some v := by
  simp [Params.get?, List.find?]

@[simp] theorem Params.get?_single_ne (k v k' : String) (h : (k == k') = false) :
    Params.get? [(k, v)] k' = none := by
  simp [Params.get?, List.find?, h]

@[simp] theorem Params.eraseKey_optParam_same (k : String) (v : Option String) :
    (optParam k v).eraseKey k = [] := by
  cases v <;> simp [optParam, Params.eraseKey, List.filter]

@[simp] theorem Params.eraseKey_optParam_ne (k k' : String) (v : Option String)
    (h : (k == k') = false) : (optParam k v).eraseKey k' = optParam k v := by
  cases v <;> simp [optParam, Params.eraseKey, List.filter, bne, h]

@[simp] theorem Params.eraseKey_single_ne (k v k' : String) (h : (k == k') = false) :
    Params.eraseKey [(k, v)] k' = [(k, v)] := by
  simp [Params.eraseKey, List.filter, bne, h]

@[simp] theorem Params.get?_cons_same (k v : String) (ps : Params) :
    Params.get? ((k, v) :: ps) k = some v := by
  simp [Params.get?, List.find?]

@[simp] theorem Params.get?_cons_ne (k v k' : String) (ps : Params)
    (h : (k == k') = false) : Params.get? ((k, v) :: ps) k' = ps.get? k' := by
  simp [Params.get?, List.find?, h]

@[simp] theorem Params.eraseKey_cons_ne (k v k' : String) (ps : Params)
    (h : (k == k') = false) : Params.eraseKey ((k, v) :: ps) k' = (k, v) :: ps.eraseKey k' := by
  simp [Params.eraseKey, List.filter, bne, h]

theorem Params.eraseKey_append (xs ys : Params) (k : String) :
    (xs ++ ys).eraseKey k = xs.eraseKey k ++ ys.eraseKey k :=
  List.filter_append xs ys

/-! ### What the builders put into the mapping -/

theorem coinExchangeParams_spec (req : GetCoinExchangeRecordsRequest) :
    (coinExchangeParams req).get? "fromCoin" = req.FromCoin ∧
    (coinExchangeParams req).get? "toCoin" = req.ToCoin ∧
    (coinExchangeParams req).get? "limit" = req.Limit.map goItoa ∧
    (coinExchangeParams req).get? "cursor" = req.Cursor := by
  refine ⟨?_, ?_, ?_, ?_⟩ <;>
    simp [coinExchangeParams, Params.get?_append, Option.orElse_none, Option.none_orElse]

theorem deliveryParams_spec (req : GetDeliveryRecordRequest) :
    (deliveryParams req).get? "category" = some req.Category ∧
    (deliveryParams req).get? "symbol" = req.Symbol ∧
    (deliveryParams req).get? "startTime" = req.StartTime.map goFormatInt10 ∧
    (deliveryParams req).get? "endTime" = req.EndTime.map goFormatInt10 ∧
    (deliveryParams req).get? "expDate" = req.ExpDate ∧
    (deliveryParams req).get? "limit" = req.Limit.map goItoa ∧
    (deliveryParams req).get? "cursor" = req.Cursor := by
  refine ⟨?_, ?_, ?_, ?_, ?_, ?_, ?_⟩ <;>
    simp [deliveryParams, Params.get?_append, Option.orElse_none, Option.none_orElse]

theorem settlementParams_spec (req : GetSessionSettlementRecordRequest) :
    (settlementParams req).get? "category" = some req.Category ∧
    (settlementParams req).get? "symbol" = req.Symbol ∧
    (settlementParams req).get? "startTime" = req.StartTime.map goFormatInt10 ∧
    (settlementParams req).get? "endTime" = req.EndTime.map goFormatInt10 ∧
    (settlementParams req).get? "limit" = req.Limit.map goItoa ∧
    (settlementParams req).get? "cursor" = req.Cursor := by
  refine ⟨?_, ?_, ?_, ?_, ?_, ?_⟩ <;>
    simp [settlementParams, Params.get?_append, Option.orElse_none, Option.none_orElse]

theorem allCoinsBalanceParams_spec (req : GetAllCoinsBalanceRequest) :
    (allCoinsBalanceParams req).get? "memberId" = req.MemberID ∧
    (allCoinsBalanceParams req).get? "accountType" = some req.AccountType ∧
    (allCoinsBalanceParams req).get? "coin" = req.Coin ∧
    (allCoinsBalanceParams req).get? "withBonus" = req.WithBonus.map goItoa := by
  refine ⟨?_, ?_, ?_, ?_⟩ <;>
    simp [allCoinsBalanceParams, Params.get?_append, Option.orElse_none, Option.none_orElse]

/-- Rebuilding the coin-exchange parameters after the cursor field is
overwritten: the cursor key now holds the new cursor and nothing else moved. -/
theorem coinExchangeParams_setCursor (req : GetCoinExchangeRecordsRequest) (c : String) :
    (coinExchangeParams { req with Cursor := some c }).get? "cursor" = some c ∧
    (coinExchangeParams { req with Cursor := some c }).eraseKey "cursor" =
      (coinExchangeParams req).eraseKey "cursor" := by
  constructor
  · simp [coinExchangeParams, Params.get?_append, Option.orElse_none, Option.none_orElse]
  · simp [coinExchangeParams, Params.eraseKey_append]

/-- Rebuilding the delivery parameters after the cursor field is overwritten. -/
theorem deliveryParams_setCursor (req : GetDeliveryRecordRequest) (c : String) :
    (deliveryParams { req with Cursor := some c }).get? "cursor" = some c ∧
    (deliveryParams { req with Cursor := some c }).eraseKey "cursor" =
      (deliveryParams req).eraseKey "cursor" := by
  constructor
  · simp [deliveryParams, Params.get?_append, Option.orElse_none, Option.none_orElse]
  · simp [deliveryParams, Params.eraseKey_append]

/-! ### Facts about the traces and the evolving request state -/

@[simp] theorem paramsTraceCX_length (front : List GetCoinExchangeRecordsResponse) :
    ∀ req, (paramsTraceCX front req).length = front.length := by
  induction front with
  | nil => intro req; rfl
  | cons p ps ih => intro req; simp [paramsTraceCX, ih]

@[simp] theorem paramsTraceDL_length (front : List GetDeliveryRecordResponse) :
    ∀ req, (paramsTraceDL front req).length = front.length := by
  induction front with
  | nil => intro req; rfl
  | cons p ps ih => intro req; simp [paramsTraceDL, ih]

@[simp] theorem paramsTraceSS_length (front : List GetSessionSettlementRecordResponse) :
    ∀ qp, (paramsTraceSS front qp).length = front.length := by
  induction front with
  | nil => intro qp; rfl
  | cons p ps ih => intro qp; simp [paramsTraceSS, ih]

theorem paramsTraceCX_getElem (front : List GetCoinExchangeRecordsResponse) :
    ∀ (n : Nat) (req : GetCoinExchangeRecordsRequest), n < front.length →
    (paramsTraceCX front req)[n]? = some (coinExchangeParams (reqAfterCX (front.take n) req)) := by
  induction front with
  | nil => intro n req hn; simp at hn
  | cons p ps ih =>
    intro n req hn
    match n with
    | 0 => simp [paramsTraceCX, reqAfterCX]
    | n + 1 =>
      have hn2 : n < ps.length := by simpa using hn
      simp [paramsTraceCX, List.take_succ_cons, reqAfterCX, ih n _ hn2]

theorem reqAfterCX_take_succ (front : List GetCoinExchangeRecordsResponse) :
    ∀ (n : Nat) (req : GetCoinExchangeRecordsRequest) (hn : n < front.length),
    reqAfterCX (front.take (n + 1)) req =
      { reqAfterCX (front.take n) req with Cursor := some front[n].Result.NextPageCursor } := by
  induction front with
  | nil => intro n req hn; simp at hn
  | cons p ps ih =>
    intro n req hn
    match n with
    | 0 => simp [reqAfterCX]
    | n + 1 =>
      have hn2 : n < ps.length := by simpa using hn
      simp [List.take_succ_cons, reqAfterCX, ih n _ hn2]

theorem paramsTraceDL_getElem (front : List GetDeliveryRecordResponse) :
    ∀ (n : Nat) (req : GetDeliveryRecordRequest), n < front.length →
    (paramsTraceDL front req)[n]? = some (deliveryParams (reqAfterDL (front.take n) req)) := by
  induction front with
  | nil => intro n req hn; simp at hn
  | cons p ps ih =>
    intro n req hn
    match n with
    | 0 => simp [paramsTraceDL, reqAfterDL]
    | n + 1 =>
      have hn2 : n < ps.length := by simpa using hn
      simp [paramsTraceDL, List.take_succ_cons, reqAfterDL, ih n _ hn2]

theorem reqAfterDL_take_succ (front : List GetDeliveryRecordResponse) :
    ∀ (n : Nat) (req : GetDeliveryRecordRequest) (hn : n < front.length),
    reqAfterDL (front.take (n + 1)) req =
      { reqAfterDL (front.take n) req with Cursor := some front[n].Result.NextPageCursor } := by
  induction front with
  | nil => intro n req hn; simp at hn
  | cons p ps ih =>
    intro n req hn
    match n with
    | 0 => simp [reqAfterDL]
    | n + 1 =>
      have hn2 : n < ps.length := by simpa using hn
      simp [List.take_succ_cons, reqAfterDL, ih n _ hn2]

theorem paramsTraceSS_getElem (front : List GetSessionSettlementRecordResponse) :
    ∀ (n : Nat) (qp : Params), n < front.length →
    (paramsTraceSS front qp)[n]? = some (qpAfterSS (front.take n) qp) := by
  induction front with
  | nil => intro n qp hn; simp at hn
  | cons p ps ih =>
    intro n qp hn
    match n with
    | 0 => simp [paramsTraceSS, qpAfterSS]
    | n + 1 =>
      have hn2 : n < ps.length := by simpa using hn
      simp [paramsTraceSS, List.take_succ_cons, qpAfterSS, ih n _ hn2]

theorem qpAfterSS_take_succ (front : List GetSessionSettlementRecordResponse) :
    ∀ (n : Nat) (qp : Params) (hn : n < front.length),
    qpAfterSS (front.take (n + 1)) qp =
      (qpAfterSS (front.take n) qp).set "cursor" front[n].Result.NextPageCursor := by
  induction front with
  | nil => intro n qp hn; simp at hn
  | cons p ps ih =>
    intro n qp hn
    match n with
    | 0 => simp [qpAfterSS]
    | n + 1 =>
      have hn2 : n < ps.length := by simpa using hn
      simp [List.take_succ_cons, qpAfterSS, ih n _ hn2]

theorem reqAfterCX_fields (front : List GetCoinExchangeRecordsResponse) :
    ∀ req, (reqAfterCX front req).FromCoin = req.FromCoin ∧
      (reqAfterCX front req).ToCoin = req.ToCoin ∧
      (reqAfterCX front req).Limit = req.Limit := by
  induction front with
  | nil => intro req; exact ⟨rfl, rfl, rfl⟩
  | cons p ps ih => intro req; simpa [reqAfterCX] using ih _

theorem reqAfterDL_fields (front : List GetDeliveryRecordResponse) :
    ∀ req, (reqAfterDL front req).Category = req.Category ∧
      (reqAfterDL front req).Symbol = req.Symbol ∧
      (reqAfterDL front req).StartTime = req.StartTime ∧
      (reqAfterDL front req).EndTime = req.EndTime ∧
      (reqAfterDL front req).ExpDate = req.ExpDate ∧
      (reqAfterDL front req).Limit = req.Limit := by
  induction front with
  | nil => intro req; exact ⟨rfl, rfl, rfl, rfl, rfl, rfl⟩
  | cons p ps ih => intro req; simpa [reqAfterDL] using ih _

theorem reqAfterCX_append (l1 l2 : List GetCoinExchangeRecordsResponse) :
    ∀ req, reqAfterCX (l1 ++ l2) req = reqAfterCX l2 (reqAfterCX l1 req) := by
  induction l1 with
  | nil => intro req; rfl
  | cons p ps ih => intro req; simp [reqAfterCX, ih]

theorem reqAfterDL_append (l1 l2 : List GetDeliveryRecordResponse) :
    ∀ req, reqAfterDL (l1 ++ l2) req = reqAfterDL l2 (reqAfterDL l1 req) := by
  induction l1 with
  | nil => intro req; rfl
  | cons p ps ih => intro req; simp [reqAfterDL, ih]

/-! ### Outcome invariants of the loops -/

/-- The transport boundary assumption of the spec: `client.Get` returns a
decodable (re-marshalable) generic value or an error. -/
def isDecodable : Except String GenericValue → Bool
  | .ok (.unmarshalable _) => false
  | _ => true

theorem coinExLoop_done_ok (replies : Transport) :
    ∀ req acc resp, (coinExLoop replies req acc).outcome = .done (.ok resp) →
    resp.RetCode = 0 ∧ resp.RetMsg = "OK" ∧ resp.Result.NextPageCursor = "" := by
  induction replies with
  | nil => intro req acc resp h; simp [coinExLoop] at h
  | cons r rest ih =>
    intro req acc resp h
    rcases r with e | gv
    · simp [coinExLoop] at h
    · rcases gv with j | e
      · cases hu : unmarshalCoinExchange j with
        | error e => simp [coinExLoop, marshalGeneric, hu] at h
        | ok page =>
          by_cases hc : page.Result.NextPageCursor = ""
          · simp [coinExLoop, marshalGeneric, hu, hc] at h
            exact h ▸ ⟨rfl, rfl, rfl⟩
          · simp [coinExLoop, marshalGeneric, hu, hc] at h
            exact ih _ _ _ h
      · simp [coinExLoop, marshalGeneric] at h

theorem deliveryLoop_done_ok (replies : Transport) :
    ∀ req acc resp, (deliveryLoop replies req acc).outcome = .done (.ok resp) →
    resp.RetCode = 0 ∧ resp.RetMsg = "OK" ∧ resp.Result.NextPageCursor = "" := by
  induction replies with
  | nil => intro req acc resp h; simp [deliveryLoop] at h
  | cons r rest ih =>
    intro req acc resp h
    rcases r with e | gv
    · simp [deliveryLoop] at h
    · rcases gv with j | e
      · cases hu : unmarshalDelivery j with
        | error e => simp [deliveryLoop, marshalGeneric, hu] at h
        | ok page =>
          by_cases hc : page.Result.NextPageCursor = ""
          · simp [deliveryLoop, marshalGeneric, hu, hc] at h
            exact h ▸ ⟨rfl, rfl, rfl⟩
          · simp [deliveryLoop, marshalGeneric, hu, hc] at h
            exact ih _ _ _ h
      · simp [deliveryLoop, marshalGeneric] at h

theorem settlementLoop_done_ok (replies : Transport) :
    ∀ qp acc resp, (settlementLoop replies qp acc).fst = .done (.ok resp) →
    resp.RetCode = 0 ∧ resp.RetMsg = "OK" ∧ resp.Result.NextPageCursor = "" := by
  induction replies with
  | nil => intro qp acc resp h; simp [settlementLoop] at h
  | cons r rest ih =>
    intro qp acc resp h
    rcases r with e | gv
    · simp [settlementLoop] at h
    · rcases gv with j | e
      · cases hu : unmarshalSettlement j with
        | error e => simp [settlementLoop, marshalGeneric, hu] at h
        | ok page =>
          by_cases hc : page.Result.NextPageCursor = ""
          · simp [settlementLoop, marshalGeneric, hu, hc] at h
            exact h ▸ ⟨rfl, rfl, rfl⟩
          · simp [settlementLoop, marshalGeneric, hu, hc] at h
            exact ih _ _ _ h
      · simp [settlementLoop, marshalGeneric] at h

theorem coinExLoop_done_of_empty (envs : List GetCoinExchangeRecordsResponse) :
    ∀ req acc, (∃ p ∈ envs, p.Result.NextPageCursor = "") →
    ∃ resp, (coinExLoop (envs.map pageReplyCX) req acc).outcome = .done (.ok resp) := by
  induction envs with
  | nil =>
    rintro req acc ⟨p, hp, _⟩
    exact absurd hp (List.not_mem_nil p)
  | cons p ps ih =>
    rintro req acc ⟨q, hq, hqc⟩
    by_cases hc : p.Result.NextPageCursor = ""
    · exact ⟨⟨0, "OK", ⟨acc ++ p.Result.OrderBody, ""⟩⟩,
        by simp [coinExLoop, pageReplyCX, marshalGeneric, hc]⟩
    · have hq2 : q ∈ ps := by
        rcases List.mem_cons.mp hq with h1 | h1
        · exact absurd (h1 ▸ hqc) hc
        · exact h1
      obtain ⟨resp, hr⟩ := ih { req with Cursor := some p.Result.NextPageCursor }
        (acc ++ p.Result.OrderBody) ⟨q, hq2, hqc⟩
      exact ⟨resp, by simpa [coinExLoop, pageReplyCX, marshalGeneric, hc] using hr⟩

theorem deliveryLoop_done_of_empty (envs : List GetDeliveryRecordResponse) :
    ∀ req acc, (∃ p ∈ envs, p.Result.NextPageCursor = "") →
    ∃ resp, (deliveryLoop (envs.map pageReplyDL) req acc).outcome = .done (.ok resp) := by
  induction envs with
  | nil =>
    rintro req acc ⟨p, hp, _⟩
    exact absurd hp (List.not_mem_nil p)
  | cons p ps ih =>
    rintro req acc ⟨q, hq, hqc⟩
    by_cases hc : p.Result.NextPageCursor = ""
    · exact ⟨⟨0, "OK", ⟨acc ++ p.Result.RecordList, ""⟩⟩,
        by simp [deliveryLoop, pageReplyDL, marshalGeneric, hc]⟩
    · have hq2 : q ∈ ps := by
        rcases List.mem_cons.mp hq with h1 | h1
        · exact absurd (h1 ▸ hqc) hc
        · exact h1
      obtain ⟨resp, hr⟩ := ih { req with Cursor := some p.Result.NextPageCursor }
        (acc ++ p.Result.RecordList) ⟨q, hq2, hqc⟩
      exact ⟨resp, by simpa [deliveryLoop, pageReplyDL, marshalGeneric, hc] using hr⟩

theorem settlementLoop_done_of_empty (envs : List GetSessionSettlementRecordResponse) :
    ∀ qp acc, (∃ p ∈ envs, p.Result.NextPageCursor = "") →
    ∃ resp, (settlementLoop (envs.map pageReplySS) qp acc).fst = .done (.ok resp) := by
  induction envs with
  | nil =>
    rintro qp acc ⟨p, hp, _⟩
    exact absurd hp (List.not_mem_nil p)
  | cons p ps ih =>
    rintro qp acc ⟨q, hq, hqc⟩
    by_cases hc : p.Result.NextPageCursor = ""
    · exact ⟨⟨0, "OK", ⟨acc ++ p.Result.RecordList, ""⟩⟩,
        by simp [settlementLoop, pageReplySS, marshalGeneric, hc]⟩
    · have hq2 : q ∈ ps := by
        rcases List.mem_cons.mp hq with h1 | h1
        · exact absurd (h1 ▸ hqc) hc
        · exact h1
      obtain ⟨resp, hr⟩ := ih (qp.set "cursor" p.Result.NextPageCursor)
        (acc ++ p.Result.RecordList) ⟨q, hq2, hqc⟩
      exact ⟨resp, by simpa [settlementLoop, pageReplySS, marshalGeneric, hc] using hr⟩

theorem coinExLoop_done_error (replies : Transport) :
    ∀ req acc m, (∀ r ∈ replies, isDecodable r = true) →
    (coinExLoop replies req acc).outcome = .done (.error m) →
    (∃ e, .error e ∈ replies ∧ m = "error fetching coin exchange records: " ++ e) ∨
    (∃ j e, .ok (.json j) ∈ replies ∧ unmarshalCoinExchange j = .error e ∧
      m = "error parsing coin exchange records response: " ++ e) := by
  induction replies with
  | nil => intro req acc m _ h; simp [coinExLoop] at h
  | cons r rest ih =>
    intro req acc m hdec h
    rcases r with e | gv
    · simp only [coinExLoop] at h
      rcases h with h
      left
      refine ⟨e, List.mem_cons_self _ _, ?_⟩
      simpa using h.symm
    · rcases gv with j | e
      · cases hu : unmarshalCoinExchange j with
        | error e =>
          simp [coinExLoop, marshalGeneric, hu] at h
          right
          exact ⟨j, e, List.mem_cons_self _ _, hu, h.symm⟩
        | ok page =>
          by_cases hc : page.Result.NextPageCursor = ""
          · simp [coinExLoop, marshalGeneric, hu, hc] at h
          · simp [coinExLoop, marshalGeneric, hu, hc] at h
            have hdec2 : ∀ r ∈ rest, isDecodable r = true :=
              fun r hr => hdec r (List.mem_cons_of_mem _ hr)
            rcases ih _ _ _ hdec2 h with ⟨e, he, hm⟩ | ⟨j2, e, hj, hu2, hm⟩
            · exact Or.inl ⟨e, List.mem_cons_of_mem _ he, hm⟩
            · exact Or.inr ⟨j2, e, List.mem_cons_of_mem _ hj, hu2, hm⟩
      · exact absurd (hdec _ (List.mem_cons_self _ _)) (by simp [isDecodable])

theorem deliveryLoop_done_error (replies : Transport) :
    ∀ req acc m, (∀ r ∈ replies, isDecodable r = true) →
    (deliveryLoop replies req acc).outcome = .done (.error m) →
    (∃ e, .error e ∈ replies ∧ m = "error fetching delivery records: " ++ e) ∨
    (∃ j e, .ok (.json j) ∈ replies ∧ unmarshalDelivery j = .error e ∧
      m = "error parsing delivery records response: " ++ e) := by
  induction replies with
  | nil => intro req acc m _ h; simp [deliveryLoop] at h
  | cons r rest ih =>
    intro req acc m hdec h
    rcases r with e | gv
    · simp only [deliveryLoop] at h
      rcases h with h
      left
      refine ⟨e, List.mem_cons_self _ _, ?_⟩
      simpa using h.symm
    · rcases gv with j | e
      · cases hu : unmarshalDelivery j with
        | error e =>
          simp [deliveryLoop, marshalGeneric, hu] at h
          right
          exact ⟨j, e, List.mem_cons_self _ _, hu, h.symm⟩
        | ok page =>
          by_cases hc : page.Result.NextPageCursor = ""
          · simp [deliveryLoop, marshalGeneric, hu, hc] at h
          · simp [deliveryLoop, marshalGeneric, hu, hc] at h
            have hdec2 : ∀ r ∈ rest, isDecodable r = true :=
              fun r hr => hdec r (List.mem_cons_of_mem _ hr)
            rcases ih _ _ _ hdec2 h with ⟨e, he, hm⟩ | ⟨j2, e, hj, hu2, hm⟩
            · exact Or.inl ⟨e, List.mem_cons_of_mem _ he, hm⟩
            · exact Or.inr ⟨j2, e, List.mem_cons_of_mem _ hj, hu2, hm⟩
      · exact absurd (hdec _ (List.mem_cons_self _ _)) (by simp [isDecodable])

theorem settlementLoop_done_error (replies : Transport) :
    ∀ qp acc m, (∀ r ∈ replies, isDecodable r = true) →
    (settlementLoop replies qp acc).fst = .done (.error m) →
    (∃ e, .error e ∈ replies ∧ m = "error fetching session settlement records: " ++ e) ∨
    (∃ j e, .ok (.json j) ∈ replies ∧ unmarshalSettlement j = .error e ∧
      m = "error parsing session settlement records response: " ++ e) := by
  induction replies with
  | nil => intro qp acc m _ h; simp [settlementLoop] at h
  | cons r rest ih =>
    intro qp acc m hdec h
    rcases r with e | gv
    · simp only [settlementLoop] at h
      rcases h with h
      left
      refine ⟨e, List.mem_cons_self _ _, ?_⟩
      simpa using h.symm
    · rcases gv with j | e
      · cases hu : unmarshalSettlement j with
        | error e =>
          simp [settlementLoop, marshalGeneric, hu] at h
          right
          exact ⟨j, e, List.mem_cons_self _ _, hu, h.symm⟩
        | ok page =>
          by_cases hc : page.Result.NextPageCursor = ""
          · simp [settlementLoop, marshalGeneric, hu, hc] at h
          · simp [settlementLoop, marshalGeneric, hu, hc] at h
            have hdec2 : ∀ r ∈ rest, isDecodable r = true :=
              fun r hr => hdec r (List.mem_cons_of_mem _ hr)
            rcases ih _ _ _ hdec2 h with ⟨e, he, hm⟩ | ⟨j2, e, hj, hu2, hm⟩
            · exact Or.inl ⟨e, List.mem_cons_of_mem _ he, hm⟩
            · exact Or.inr ⟨j2, e, List.mem_cons_of_mem _ hj, hu2, hm⟩
      · exact absurd (hdec _ (List.mem_cons_self _ _)) (by simp [isDecodable])

/-- Parameter construction of `GetAssetInfo`, key by key. -/
theorem assetInfoParams_spec (req : GetAssetInfoRequest) :
    (assetInfoParams req).get? "accountType" = some req.AccountType ∧
    (assetInfoParams req).get? "coin" = req.Coin := by
  refine ⟨?_, ?_⟩ <;>
    simp [assetInfoParams, Params.get?_append, Option.orElse_none, Option.none_orElse]

/-! ### The claims -/

/-- C3: every successful paginated aggregation call returns a response with
`retCode = 0`, `retMsg = "OK"` and an empty `nextPageCursor`, whatever the
upstream pages carried. -/
theorem claim_C3 :
    (∀ (replies : Transport) (req : GetCoinExchangeRecordsRequest)
      (resp : GetCoinExchangeRecordsResponse),
      (GetCoinExchangeRecords req replies).outcome = .done (.ok resp) →
      resp.RetCode = 0 ∧ resp.RetMsg = "OK" ∧ resp.Result.NextPageCursor = "") ∧
    (∀ (replies : Transport) (req : GetDeliveryRecordRequest)
      (resp : GetDeliveryRecordResponse),
      (GetDeliveryRecords req replies).outcome = .done (.ok resp) →
      resp.RetCode = 0 ∧ resp.RetMsg = "OK" ∧ resp.Result.NextPageCursor = "") ∧
    (∀ (replies : Transport) (req : GetSessionSettlementRecordRequest)
      (resp : GetSessionSettlementRecordResponse),
      (GetSessionSettlementRecords req replies).outcome = .done (.ok resp) →
      resp.RetCode = 0 ∧ resp.RetMsg = "OK" ∧ resp.Result.NextPageCursor = "") := by
  refine ⟨?_, ?_, ?_⟩
  · intro replies req resp h
    exact coinExLoop_done_ok replies req [] resp h
  · intro replies req resp h
    exact deliveryLoop_done_ok replies req [] resp h
  · intro replies req resp h
    exact settlementLoop_done_ok replies (settlementParams req) [] resp h

/-- C3 witness: a single page carrying `retCode = 10016`, `retMsg = "error"`
and an empty cursor still yields the normalized `0 / "OK" / ""` response. -/
theorem claim_C3_witness :
    (GetCoinExchangeRecords ⟨none, none, none, none⟩
        [pageReplyCX ⟨10016, "error", ⟨[], ""⟩⟩]).outcome =
      .done (.ok ⟨0, "OK", ⟨[], ""⟩⟩) ∧
    ((0 : Int) = 0 ∧ "OK" = "OK" ∧ "" = "") :=
  ⟨rfl, claim_C3.1 [pageReplyCX ⟨10016, "error", ⟨[], ""⟩⟩] ⟨none, none, none, none⟩
    ⟨0, "OK", ⟨[], ""⟩⟩ rfl⟩

/-- C6: each builder sends every required field, sends an optional field's key
exactly when the field is present (an unset optional field's key is absent,
never an empty string), and formats numeric optionals in base 10
(`goItoa` / `goFormatInt10` are decimal formatting). -/
theorem claim_C6 :
    (∀ (req : GetDeliveryRecordRequest),
      (deliveryParams req).get? "category" = some req.Category ∧
      (deliveryParams req).get? "symbol" = req.Symbol ∧
      (deliveryParams req).get? "startTime" = req.StartTime.map goFormatInt10 ∧
      (deliveryParams req).get? "endTime" = req.EndTime.map goFormatInt10 ∧
      (deliveryParams req).get? "expDate" = req.ExpDate ∧
      (deliveryParams req).get? "limit" = req.Limit.map goItoa ∧
      (deliveryParams req).get? "cursor" = req.Cursor) ∧
    (∀ (req : GetCoinExchangeRecordsRequest),
      (coinExchangeParams req).get? "fromCoin" = req.FromCoin ∧
      (coinExchangeParams req).get? "toCoin" = req.ToCoin ∧
      (coinExchangeParams req).get? "limit" = req.Limit.map goItoa ∧
      (coinExchangeParams req).get? "cursor" = req.Cursor) ∧
    (∀ (req : GetSessionSettlementRecordRequest),
      (settlementParams req).get? "category" = some req.Category ∧
      (settlementParams req).get? "symbol" = req.Symbol ∧
      (settlementParams req).get? "startTime" = req.StartTime.map goFormatInt10 ∧
      (settlementParams req).get? "endTime" = req.EndTime.map goFormatInt10 ∧
      (settlementParams req).get? "limit" = req.Limit.map goItoa ∧
      (settlementParams req).get? "cursor" = req.Cursor) ∧
    (∀ (req : GetAssetInfoRequest),
      (assetInfoParams req).get? "accountType" = some req.AccountType ∧
      (assetInfoParams req).get? "coin" = req.Coin) ∧
    (∀ (req : GetAllCoinsBalanceRequest),
      (allCoinsBalanceParams req).get? "memberId" = req.MemberID ∧
      (allCoinsBalanceParams req).get? "accountType" = some req.AccountType ∧
      (allCoinsBalanceParams req).get? "coin" = req.Coin ∧
      (allCoinsBalanceParams req).get? "withBonus" = req.WithBonus.map goItoa) :=
  ⟨deliveryParams_spec, coinExchangeParams_spec, settlementParams_spec,
    assetInfoParams_spec, allCoinsBalanceParams_spec⟩

/-- C7: with every fetch and decode succeeding, each aggregation loop
terminates exactly when some served page carries an empty cursor; a run of
pages that all carry non-empty cursors leaves the loop still fetching, with
no internal page bound cutting it off. -/
theorem claim_C7 :
    (∀ (envs : List GetCoinExchangeRecordsResponse) (req : GetCoinExchangeRecordsRequest),
      ((∀ p ∈ envs, p.Result.NextPageCursor ≠ "") →
        (GetCoinExchangeRecords req (envs.map pageReplyCX)).outcome = .running) ∧
      ((∃ p ∈ envs, p.Result.NextPageCursor = "") →
        ∃ resp, (GetCoinExchangeRecords req (envs.map pageReplyCX)).outcome =
          .done (.ok resp))) ∧
    (∀ (envs : List GetDeliveryRecordResponse) (req : GetDeliveryRecordRequest),
      ((∀ p ∈ envs, p.Result.NextPageCursor ≠ "") →
        (GetDeliveryRecords req (envs.map pageReplyDL)).outcome = .running) ∧
      ((∃ p ∈ envs, p.Result.NextPageCursor = "") →
        ∃ resp, (GetDeliveryRecords req (envs.map pageReplyDL)).outcome =
          .done (.ok resp))) ∧
    (∀ (envs : List GetSessionSettlementRecordResponse)
      (req : GetSessionSettlementRecordRequest),
      ((∀ p ∈ envs, p.Result.NextPageCursor ≠ "") →
        (GetSessionSettlementRecords req (envs.map pageReplySS)).outcome = .running) ∧
      ((∃ p ∈ envs, p.Result.NextPageCursor = "") →
        ∃ resp, (GetSessionSettlementRecords req (envs.map pageReplySS)).outcome =
          .done (.ok resp))) := by
  refine ⟨fun envs req => ⟨?_, ?_⟩, fun envs req => ⟨?_, ?_⟩, fun envs req => ⟨?_, ?_⟩⟩
  · intro h
    have hg := coinExLoop_goodFront envs [] h req []
    rw [List.append_nil] at hg
    rw [GetCoinExchangeRecords, hg]
    rfl
  · intro h
    exact coinExLoop_done_of_empty envs req [] h
  · intro h
    have hg := deliveryLoop_goodFront envs [] h req []
    rw [List.append_nil] at hg
    rw [GetDeliveryRecords, hg]
    rfl
  · intro h
    exact deliveryLoop_done_of_empty envs req [] h
  · intro h
    have hg := settlementLoop_goodFront envs [] h (settlementParams req) []
    rw [List.append_nil] at hg
    show (settlementLoop (envs.map pageReplySS) (settlementParams req) []).fst = .running
    rw [hg]
    rfl
  · intro h
    exact settlementLoop_done_of_empty envs (settlementParams req) [] h

/-- C7 witness: one page with cursor `"X"` leaves each loop fetching;
one page with cursor `""` completes each call. -/
theorem claim_C7_witness :
    ((∀ p ∈ [(⟨0, "OK", ⟨[], "X"⟩⟩ : GetCoinExchangeRecordsResponse)],
        p.Result.NextPageCursor ≠ "") ∧
      (GetCoinExchangeRecords ⟨none, none, none, none⟩
        ([⟨0, "OK", ⟨[], "X"⟩⟩].map pageReplyCX)).outcome = .running) ∧
    ((∃ p ∈ [(⟨0, "OK", ⟨[], ""⟩⟩ : GetCoinExchangeRecordsResponse)],
        p.Result.NextPageCursor = "") ∧
      ∃ resp, (GetCoinExchangeRecords ⟨none, none, none, none⟩
        ([⟨0, "OK", ⟨[], ""⟩⟩].map pageReplyCX)).outcome = .done (.ok resp)) :=
  ⟨⟨by decide, (claim_C7.1 [⟨0, "OK", ⟨[], "X"⟩⟩] ⟨none, none, none, none⟩).1 (by decide)⟩,
    ⟨⟨⟨0, "OK", ⟨[], ""⟩⟩, List.mem_cons_self _ _, rfl⟩,
      (claim_C7.1 [⟨0, "OK", ⟨[], ""⟩⟩] ⟨none, none, none, none⟩).2
        ⟨⟨0, "OK", ⟨[], ""⟩⟩, List.mem_cons_self _ _, rfl⟩⟩⟩

/-- C8: under the spec's transport boundary (the client returns a decodable
generic value or an error), every error an aggregation call returns is the
underlying cause prefixed with context naming its phase: `error fetching ...`
for transport failures, `error parsing ...` for decode failures, with the
cause kept as-is. -/
theorem claim_C8 :
    (∀ (replies : Transport) (req : GetCoinExchangeRecordsRequest) (m : String),
      (∀ r ∈ replies, isDecodable r = true) →
      (GetCoinExchangeRecords req replies).outcome = .done (.error m) →
      (∃ e, .error e ∈ replies ∧ m = "error fetching coin exchange records: " ++ e) ∨
      (∃ j e, .ok (.json j) ∈ replies ∧ unmarshalCoinExchange j = .error e ∧
        m = "error parsing coin exchange records response: " ++ e)) ∧
    (∀ (replies : Transport) (req : GetDeliveryRecordRequest) (m : String),
      (∀ r ∈ replies, isDecodable r = true) →
      (GetDeliveryRecords req replies).outcome = .done (.error m) →
      (∃ e, .error e ∈ replies ∧ m = "error fetching delivery records: " ++ e) ∨
      (∃ j e, .ok (.json j) ∈ replies ∧ unmarshalDelivery j = .error e ∧
        m = "error parsing delivery records response: " ++ e)) ∧
    (∀ (replies : Transport) (req : GetSessionSettlementRecordRequest) (m : String),
      (∀ r ∈ replies, isDecodable r = true) →
      (GetSessionSettlementRecords req replies).outcome = .done (.error m) →
      (∃ e, .error e ∈ replies ∧
        m = "error fetching session settlement records: " ++ e) ∨
      (∃ j e, .ok (.json j) ∈ replies ∧ unmarshalSettlement j = .error e ∧
        m = "error parsing session settlement records response: " ++ e)) := by
  refine ⟨?_, ?_, ?_⟩
  · intro replies req m hdec h
    exact coinExLoop_done_error replies req [] m hdec h
  · intro replies req m hdec h
    exact deliveryLoop_done_error replies req [] m hdec h
  · intro replies req m hdec h
    exact settlementLoop_done_error replies (settlementParams req) [] m hdec h

/-- C8 witness: a transport failure on the first page surfaces as the wrapped
fetch-phase error. -/
theorem claim_C8_witness :
    (∀ r ∈ [(.error "boom" : Except String GenericValue)], isDecodable r = true) ∧
    (GetCoinExchangeRecords ⟨none, none, none, none⟩ [.error "boom"]).outcome =
      .done (.error "error fetching coin exchange records: boom") ∧
    ((∃ e, (.error e : Except String GenericValue) ∈
        [(.error "boom" : Except String GenericValue)] ∧
        "error fetching coin exchange records: boom" =
          "error fetching coin exchange records: " ++ e) ∨
      (∃ j e, (.ok (.json j) : Except String GenericValue) ∈
        [(.error "boom" : Except String GenericValue)] ∧
        unmarshalCoinExchange j = .error e ∧
        "error fetching coin exchange records: boom" =
          "error parsing coin exchange records response: " ++ e)) :=
  ⟨by decide, rfl,
    claim_C8.1 [.error "boom"] ⟨none, none, none, none⟩
      "error fetching coin exchange records: boom" (by decide) rfl⟩

/-- C10: `GetAssetInfo` and `GetAllCoinsBalance` perform exactly one fetch and
hand back the decoded response untouched: no field is normalized. -/
theorem claim_C10 :
    (∀ (req : GetAssetInfoRequest) (reply : Except String GenericValue),
      (GetAssetInfo req reply).calls.length = 1 ∧
      (∀ (j : Json) (resp : GetAssetInfoResponse), reply = .ok (.json j) →
        unmarshalAssetInfo j = .ok resp →
        (GetAssetInfo req reply).outcome = .done (.ok resp))) ∧
    (∀ (req : GetAllCoinsBalanceRequest) (reply : Except String GenericValue),
      (GetAllCoinsBalance req reply).calls.length = 1 ∧
      (∀ (j : Json) (resp : GetAllCoinsBalanceResponse), reply = .ok (.json j) →
        unmarshalAllCoinsBalance j = .ok resp →
        (GetAllCoinsBalance req reply).outcome = .done (.ok resp))) := by
  constructor
  · intro req reply
    constructor
    · rcases reply with e | gv
      · rfl
      · rcases gv with j | e
        · cases hu : unmarshalAssetInfo j <;> simp [GetAssetInfo, marshalGeneric, hu]
        · rfl
    · intro j resp hr hu
      subst hr
      simp [GetAssetInfo, marshalGeneric, hu]
  · intro req reply
    constructor
    · rcases reply with e | gv
      · rfl
      · rcases gv with j | e
        · cases hu : unmarshalAllCoinsBalance j <;> simp [GetAllCoinsBalance, marshalGeneric, hu]
        · rfl
    · intro j resp hr hu
      subst hr
      simp [GetAllCoinsBalance, marshalGeneric, hu]

/-- C10 witness: a reply with `retCode = 10001` and `retMsg = "err"` is
returned exactly as decoded, not rewritten to `0 / "OK"`. -/
theorem claim_C10_witness :
    ((.ok (.json (.obj [("retCode", .num 10001), ("retMsg", .str "err")])) :
        Except String GenericValue) =
      .ok (.json (.obj [("retCode", .num 10001), ("retMsg", .str "err")])) ∧
      unmarshalAssetInfo (.obj [("retCode", .num 10001), ("retMsg", .str "err")]) =
        .ok ⟨10001, "err", .null⟩) ∧
    (GetAssetInfo ⟨"SPOT", none⟩
        (.ok (.json (.obj [("retCode", .num 10001), ("retMsg", .str "err")])))).outcome =
      .done (.ok ⟨10001, "err", .null⟩) :=
  ⟨⟨rfl, rfl⟩,
    (claim_C10.1 ⟨"SPOT", none⟩
      (.ok (.json (.obj [("retCode", .num 10001), ("retMsg", .str "err")])))).2
      (.obj [("retCode", .num 10001), ("retMsg", .str "err")]) ⟨10001, "err", .null⟩
      rfl rfl⟩

/-- C1: serve `k` pages, the `k`-th being the first with an empty cursor;
each of the three paginated calls performs exactly `k` fetch/decode cycles and
returns the concatenation of the `k` record lists in page order, with
within-page order preserved and no other processing. -/
theorem claim_C1 :
    (∀ (front : List GetCoinExchangeRecordsResponse)
      (lastPage : GetCoinExchangeRecordsResponse) (rest : Transport)
      (req : GetCoinExchangeRecordsRequest),
      (∀ p ∈ front, p.Result.NextPageCursor ≠ "") →
      lastPage.Result.NextPageCursor = "" →
      (GetCoinExchangeRecords req ((front ++ [lastPage]).map pageReplyCX ++ rest)).outcome =
        .done (.ok ⟨0, "OK",
          ⟨((front ++ [lastPage]).map (fun p => p.Result.OrderBody)).flatten, ""⟩⟩) ∧
      (GetCoinExchangeRecords req
        ((front ++ [lastPage]).map pageReplyCX ++ rest)).calls.length =
        (front ++ [lastPage]).length) ∧
    (∀ (front : List GetDeliveryRecordResponse)
      (lastPage : GetDeliveryRecordResponse) (rest : Transport)
      (req : GetDeliveryRecordRequest),
      (∀ p ∈ front, p.Result.NextPageCursor ≠ "") →
      lastPage.Result.NextPageCursor = "" →
      (GetDeliveryRecords req ((front ++ [lastPage]).map pageReplyDL ++ rest)).outcome =
        .done (.ok ⟨0, "OK",
          ⟨((front ++ [lastPage]).map (fun p => p.Result.RecordList)).flatten, ""⟩⟩) ∧
      (GetDeliveryRecords req
        ((front ++ [lastPage]).map pageReplyDL ++ rest)).calls.length =
        (front ++ [lastPage]).length) ∧
    (∀ (front : List GetSessionSettlementRecordResponse)
      (lastPage : GetSessionSettlementRecordResponse) (rest : Transport)
      (req : GetSessionSettlementRecordRequest),
      (∀ p ∈ front, p.Result.NextPageCursor ≠ "") →
      lastPage.Result.NextPageCursor = "" →
      (GetSessionSettlementRecords req
        ((front ++ [lastPage]).map pageReplySS ++ rest)).outcome =
        .done (.ok ⟨0, "OK",
          ⟨((front ++ [lastPage]).map (fun p => p.Result.RecordList)).flatten, ""⟩⟩) ∧
      (GetSessionSettlementRecords req
        ((front ++ [lastPage]).map pageReplySS ++ rest)).calls.length =
        (front ++ [lastPage]).length) := by
  refine ⟨?_, ?_, ?_⟩
  · intro front lastPage rest req hf hl
    have harr : (front ++ [lastPage]).map pageReplyCX ++ rest =
        front.map pageReplyCX ++ (pageReplyCX lastPage :: rest) := by
      simp [List.map_append]
    have hgf := coinExLoop_goodFront front (pageReplyCX lastPage :: rest) hf req []
    rw [GetCoinExchangeRecords, harr, hgf]
    constructor
    · simp [coinExLoop, pageReplyCX, marshalGeneric, hl, List.map_append]
    · simp [coinExLoop, pageReplyCX, marshalGeneric, hl]
  · intro front lastPage rest req hf hl
    have harr : (front ++ [lastPage]).map pageReplyDL ++ rest =
        front.map pageReplyDL ++ (pageReplyDL lastPage :: rest) := by
      simp [List.map_append]
    have hgf := deliveryLoop_goodFront front (pageReplyDL lastPage :: rest) hf req []
    rw [GetDeliveryRecords, harr, hgf]
    constructor
    · simp [deliveryLoop, pageReplyDL, marshalGeneric, hl, List.map_append]
    · simp [deliveryLoop, pageReplyDL, marshalGeneric, hl]
  · intro front lastPage rest req hf hl
    have harr : (front ++ [lastPage]).map pageReplySS ++ rest =
        front.map pageReplySS ++ (pageReplySS lastPage :: rest) := by
      simp [List.map_append]
    have hgf := settlementLoop_goodFront front (pageReplySS lastPage :: rest) hf
      (settlementParams req) []
    constructor
    · show (settlementLoop ((front ++ [lastPage]).map pageReplySS ++ rest)
        (settlementParams req) []).fst = _
      rw [harr, hgf]
      simp [settlementLoop, pageReplySS, marshalGeneric, hl, List.map_append]
    · show (settlementLoop ((front ++ [lastPage]).map pageReplySS ++ rest)
        (settlementParams req) []).snd.length = _
      rw [harr, hgf]
      simp [settlementLoop, pageReplySS, marshalGeneric, hl]

/-- Concrete pages for the C1 witness scenario. -/
def pageCX1 : GetCoinExchangeRecordsResponse := ⟨0, "OK", ⟨[.str "a", .str "b"], "X"⟩⟩

/-- Final page of the C1 witness scenario, with non-normal upstream values. -/
def pageCX2 : GetCoinExchangeRecordsResponse := ⟨7, "partial", ⟨[.str "c"], ""⟩⟩

/-- An all-unset coin-exchange request. -/
def reqCX0 : GetCoinExchangeRecordsRequest := ⟨none, none, none, none⟩

/-- C1 witness: pages `[a, b]` with cursor `"X"` then `[c]` with cursor `""`
aggregate to `[a, b, c]` in exactly two cycles. -/
theorem claim_C1_witness :
    ((∀ p ∈ [pageCX1], p.Result.NextPageCursor ≠ "") ∧
      pageCX2.Result.NextPageCursor = "" ∧
      ((GetCoinExchangeRecords reqCX0
          (([pageCX1] ++ [pageCX2]).map pageReplyCX ++ [])).outcome =
        .done (.ok ⟨0, "OK",
          ⟨(([pageCX1] ++ [pageCX2]).map (fun p => p.Result.OrderBody)).flatten, ""⟩⟩) ∧
        (GetCoinExchangeRecords reqCX0
          (([pageCX1] ++ [pageCX2]).map pageReplyCX ++ [])).calls.length =
          ([pageCX1] ++ [pageCX2]).length)) ∧
    (GetCoinExchangeRecords reqCX0
        (([pageCX1] ++ [pageCX2]).map pageReplyCX ++ [])).outcome =
      .done (.ok ⟨0, "OK", ⟨[.str "a", .str "b", .str "c"], ""⟩⟩) :=
  ⟨⟨by decide, rfl, claim_C1.1 [pageCX1] pageCX2 [] reqCX0 (by decide) rfl⟩, rfl⟩

/-- C2: a transport failure on any page (here after an arbitrary run of good
pages) makes each paginated call return the wrapped transport error and no
response value: no record of the previously fetched pages is returned, and
the failing fetch is the last fetch performed (no retry). -/
theorem claim_C2 :
    (∀ (front : List GetCoinExchangeRecordsResponse) (e : String) (rest : Transport)
      (req : GetCoinExchangeRecordsRequest),
      (∀ p ∈ front, p.Result.NextPageCursor ≠ "") →
      (GetCoinExchangeRecords req (front.map pageReplyCX ++ (.error e :: rest))).outcome =
        .done (.error ("error fetching coin exchange records: " ++ e)) ∧
      (GetCoinExchangeRecords req
        (front.map pageReplyCX ++ (.error e :: rest))).calls.length =
        front.length + 1) ∧
    (∀ (front : List GetDeliveryRecordResponse) (e : String) (rest : Transport)
      (req : GetDeliveryRecordRequest),
      (∀ p ∈ front, p.Result.NextPageCursor ≠ "") →
      (GetDeliveryRecords req (front.map pageReplyDL ++ (.error e :: rest))).outcome =
        .done (.error ("error fetching delivery records: " ++ e)) ∧
      (GetDeliveryRecords req
        (front.map pageReplyDL ++ (.error e :: rest))).calls.length =
        front.length + 1) ∧
    (∀ (front : List GetSessionSettlementRecordResponse) (e : String) (rest : Transport)
      (req : GetSessionSettlementRecordRequest),
      (∀ p ∈ front, p.Result.NextPageCursor ≠ "") →
      (GetSessionSettlementRecords req
        (front.map pageReplySS ++ (.error e :: rest))).outcome =
        .done (.error ("error fetching session settlement records: " ++ e)) ∧
      (GetSessionSettlementRecords req
        (front.map pageReplySS ++ (.error e :: rest))).calls.length =
        front.length + 1) := by
  refine ⟨?_, ?_, ?_⟩
  · intro front e rest req hf
    have hgf := coinExLoop_goodFront front (.error e :: rest) hf req []
    rw [GetCoinExchangeRecords, hgf]
    constructor
    · simp [coinExLoop]
    · simp [coinExLoop]
  · intro front e rest req hf
    have hgf := deliveryLoop_goodFront front (.error e :: rest) hf req []
    rw [GetDeliveryRecords, hgf]
    constructor
    · simp [deliveryLoop]
    · simp [deliveryLoop]
  · intro front e rest req hf
    have hgf := settlementLoop_goodFront front (.error e :: rest) hf
      (settlementParams req) []
    constructor
    · show (settlementLoop (front.map pageReplySS ++ (.error e :: rest))
        (settlementParams req) []).fst = _
      rw [hgf]
      simp [settlementLoop]
    · show (settlementLoop (front.map pageReplySS ++ (.error e :: rest))
        (settlementParams req) []).snd.length = _
      rw [hgf]
      simp [settlementLoop]

/-- Page 1 of the C2 witness scenario. -/
def pageCX3 : GetCoinExchangeRecordsResponse := ⟨0, "OK", ⟨[.str "a"], "X"⟩⟩

/-- C2 witness: page 1 succeeds with a record and cursor `"X"`, page 2 fails
transport; the call returns only the wrapped error after exactly two fetches. -/
theorem claim_C2_witness :
    (∀ p ∈ [pageCX3], p.Result.NextPageCursor ≠ "") ∧
    ((GetCoinExchangeRecords reqCX0
        ([pageCX3].map pageReplyCX ++ (.error "boom" :: []))).outcome =
      .done (.error ("error fetching coin exchange records: " ++ "boom")) ∧
      (GetCoinExchangeRecords reqCX0
        ([pageCX3].map pageReplyCX ++ (.error "boom" :: []))).calls.length =
        [pageCX3].length + 1) :=
  ⟨by decide, claim_C2.1 [pageCX3] "boom" [] reqCX0 (by decide)⟩

/-- First calls of the loops: whenever at least one reply remains, the next
fetch is performed with the parameters built from the current request state,
whatever that reply turns out to be. -/
theorem coinExLoop_calls_head (r : Except String GenericValue) (rest : Transport)
    (req : GetCoinExchangeRecordsRequest) (acc : List Json) :
    (coinExLoop (r :: rest) req acc).calls[0]? = some (coinExchangeParams req) := by
  rcases r with e | gv
  · rfl
  · rcases gv with j | e
    · cases hu : unmarshalCoinExchange j with
      | error e => simp [coinExLoop, marshalGeneric, hu]
      | ok page =>
        by_cases hc : page.Result.NextPageCursor = ""
        · simp [coinExLoop, marshalGeneric, hu, hc]
        · simp [coinExLoop, marshalGeneric, hu, hc]
    · rfl

theorem deliveryLoop_calls_head (r : Except String GenericValue) (rest : Transport)
    (req : GetDeliveryRecordRequest) (acc : List Json) :
    (deliveryLoop (r :: rest) req acc).calls[0]? = some (deliveryParams req) := by
  rcases r with e | gv
  · rfl
  · rcases gv with j | e
    · cases hu : unmarshalDelivery j with
      | error e => simp [deliveryLoop, marshalGeneric, hu]
      | ok page =>
        by_cases hc : page.Result.NextPageCursor = ""
        · simp [deliveryLoop, marshalGeneric, hu, hc]
        · simp [deliveryLoop, marshalGeneric, hu, hc]
    · rfl

theorem settlementLoop_calls_head (r : Except String GenericValue) (rest : Transport)
    (qp : Params) (acc : List Json) :
    (settlementLoop (r :: rest) qp acc).snd[0]? = some qp := by
  rcases r with e | gv
  · rfl
  · rcases gv with j | e
    · cases hu : unmarshalSettlement j with
      | error e => simp [settlementLoop, marshalGeneric, hu]
      | ok page =>
        by_cases hc : page.Result.NextPageCursor = ""
        · simp [settlementLoop, marshalGeneric, hu, hc]
        · simp [settlementLoop, marshalGeneric, hu, hc]
    · rfl

/-- C4: for every iteration `n` whose page carries a non-empty cursor (so the
loop reaches iteration `n + 1`), the mapping sent on iteration `n + 1` holds
that cursor under `"cursor"` and agrees with the mapping of iteration `n` on
every other key, for each paginated call.  The reply consumed at iteration `n + 1`
is arbitrary: a terminal page, a transport error or an undecodable value. -/
theorem claim_C4 :
    (∀ (front : List GetCoinExchangeRecordsResponse) (rest : Transport)
      (req : GetCoinExchangeRecordsRequest) (n : Nat),
      (∀ p ∈ front, p.Result.NextPageCursor ≠ "") → (hn : n < front.length) →
      n + 1 < front.length + rest.length →
      ∃ qp1 qp2,
        (GetCoinExchangeRecords req (front.map pageReplyCX ++ rest)).calls[n]? = some qp1 ∧
        (GetCoinExchangeRecords req
          (front.map pageReplyCX ++ rest)).calls[n + 1]? = some qp2 ∧
        qp2.get? "cursor" = some front[n].Result.NextPageCursor ∧
        qp2.eraseKey "cursor" = qp1.eraseKey "cursor") ∧
    (∀ (front : List GetDeliveryRecordResponse) (rest : Transport)
      (req : GetDeliveryRecordRequest) (n : Nat),
      (∀ p ∈ front, p.Result.NextPageCursor ≠ "") → (hn : n < front.length) →
      n + 1 < front.length + rest.length →
      ∃ qp1 qp2,
        (GetDeliveryRecords req (front.map pageReplyDL ++ rest)).calls[n]? = some qp1 ∧
        (GetDeliveryRecords req
          (front.map pageReplyDL ++ rest)).calls[n + 1]? = some qp2 ∧
        qp2.get? "cursor" = some front[n].Result.NextPageCursor ∧
        qp2.eraseKey "cursor" = qp1.eraseKey "cursor") ∧
    (∀ (front : List GetSessionSettlementRecordResponse) (rest : Transport)
      (req : GetSessionSettlementRecordRequest) (n : Nat),
      (∀ p ∈ front, p.Result.NextPageCursor ≠ "") → (hn : n < front.length) →
      n + 1 < front.length + rest.length →
      ∃ qp1 qp2,
        (GetSessionSettlementRecords req
          (front.map pageReplySS ++ rest)).calls[n]? = some qp1 ∧
        (GetSessionSettlementRecords req
          (front.map pageReplySS ++ rest)).calls[n + 1]? = some qp2 ∧
        qp2.get? "cursor" = some front[n].Result.NextPageCursor ∧
        qp2.eraseKey "cursor" = qp1.eraseKey "cursor") := by
  refine ⟨?_, ?_, ?_⟩
  · intro front rest req n hf hn hr
    have hcalls : (GetCoinExchangeRecords req (front.map pageReplyCX ++ rest)).calls =
        paramsTraceCX front req ++
          (coinExLoop rest (reqAfterCX front req)
            ([] ++ (front.map (fun p => p.Result.OrderBody)).flatten)).calls := by
      rw [GetCoinExchangeRecords, coinExLoop_goodFront front rest hf req []]
    have hlen0 : n < (paramsTraceCX front req).length := by simpa using hn
    refine ⟨coinExchangeParams (reqAfterCX (front.take n) req),
      coinExchangeParams (reqAfterCX (front.take (n + 1)) req), ?_, ?_, ?_, ?_⟩
    · rw [hcalls, List.getElem?_append, if_pos hlen0]
      exact paramsTraceCX_getElem front n req hn
    · by_cases h2 : n + 1 < front.length
      · have hlen1 : n + 1 < (paramsTraceCX front req).length := by simpa using h2
        rw [hcalls, List.getElem?_append, if_pos hlen1]
        exact paramsTraceCX_getElem front (n + 1) req h2
      · have heq : n + 1 = front.length := by omega
        rcases rest with _ | ⟨r, rest2⟩
        · exfalso
          simp only [List.length_nil, Nat.add_zero] at hr
          exact h2 hr
        · have hlen1 : ¬ n + 1 < (paramsTraceCX front req).length := by simpa using h2
          rw [hcalls, List.getElem?_append, if_neg hlen1]
          have hsub : n + 1 - (paramsTraceCX front req).length = 0 := by simp [heq]
          rw [hsub]
          have htake : front.take (n + 1) = front := by
            rw [heq]
            exact List.take_length front
          rw [htake]
          exact coinExLoop_calls_head r rest2 (reqAfterCX front req) _
    · rw [reqAfterCX_take_succ front n req hn]
      exact (coinExchangeParams_setCursor _ _).1
    · rw [reqAfterCX_take_succ front n req hn]
      exact (coinExchangeParams_setCursor _ _).2
  · intro front rest req n hf hn hr
    have hcalls : (GetDeliveryRecords req (front.map pageReplyDL ++ rest)).calls =
        paramsTraceDL front req ++
          (deliveryLoop rest (reqAfterDL front req)
            ([] ++ (front.map (fun p => p.Result.RecordList)).flatten)).calls := by
      rw [GetDeliveryRecords, deliveryLoop_goodFront front rest hf req []]
    have hlen0 : n < (paramsTraceDL front req).length := by simpa using hn
    refine ⟨deliveryParams (reqAfterDL (front.take n) req),
      deliveryParams (reqAfterDL (front.take (n + 1)) req), ?_, ?_, ?_, ?_⟩
    · rw [hcalls, List.getElem?_append, if_pos hlen0]
      exact paramsTraceDL_getElem front n req hn
    · by_cases h2 : n + 1 < front.length
      · have hlen1 : n + 1 < (paramsTraceDL front req).length := by simpa using h2
        rw [hcalls, List.getElem?_append, if_pos hlen1]
        exact paramsTraceDL_getElem front (n + 1) req h2
      · have heq : n + 1 = front.length := by omega
        rcases rest with _ | ⟨r, rest2⟩
        · exfalso
          simp only [List.length_nil, Nat.add_zero] at hr
          exact h2 hr
        · have hlen1 : ¬ n + 1 < (paramsTraceDL front req).length := by simpa using h2
          rw [hcalls, List.getElem?_append, if_neg hlen1]
          have hsub : n + 1 - (paramsTraceDL front req).length = 0 := by simp [heq]
          rw [hsub]
          have htake : front.take (n + 1) = front := by
            rw [heq]
            exact List.take_length front
          rw [htake]
          exact deliveryLoop_calls_head r rest2 (reqAfterDL front req) _
    · rw [reqAfterDL_take_succ front n req hn]
      exact (deliveryParams_setCursor _ _).1
    · rw [reqAfterDL_take_succ front n req hn]
      exact (deliveryParams_setCursor _ _).2
  · intro front rest req n hf hn hr
    have hcalls : (GetSessionSettlementRecords req (front.map pageReplySS ++ rest)).calls =
        paramsTraceSS front (settlementParams req) ++
          (settlementLoop rest (qpAfterSS front (settlementParams req))
            ([] ++ (front.map (fun p => p.Result.RecordList)).flatten)).snd := by
      show (settlementLoop (front.map pageReplySS ++ rest) (settlementParams req) []).snd = _
      rw [settlementLoop_goodFront front rest hf (settlementParams req) []]
    have hlen0 : n < (paramsTraceSS front (settlementParams req)).length := by simpa using hn
    refine ⟨qpAfterSS (front.take n) (settlementParams req),
      qpAfterSS (front.take (n + 1)) (settlementParams req), ?_, ?_, ?_, ?_⟩
    · rw [hcalls, List.getElem?_append, if_pos hlen0]
      exact paramsTraceSS_getElem front n (settlementParams req) hn
    · by_cases h2 : n + 1 < front.length
      · have hlen1 : n + 1 < (paramsTraceSS front (settlementParams req)).length := by
          simpa using h2
        rw [hcalls, List.getElem?_append, if_pos hlen1]
        exact paramsTraceSS_getElem front (n + 1) (settlementParams req) h2
      · have heq : n + 1 = front.length := by omega
        rcases rest with _ | ⟨r, rest2⟩
        · exfalso
          simp only [List.length_nil, Nat.add_zero] at hr
          exact h2 hr
        · have hlen1 : ¬ n + 1 < (paramsTraceSS front (settlementParams req)).length := by
            simpa using h2
          rw [hcalls, List.getElem?_append, if_neg hlen1]
          have hsub : n + 1 - (paramsTraceSS front (settlementParams req)).length = 0 := by
            simp [heq]
          rw [hsub]
          have htake : front.take (n + 1) = front := by
            rw [heq]
            exact List.take_length front
          rw [htake]
          exact settlementLoop_calls_head r rest2 (qpAfterSS front (settlementParams req)) _
    · rw [qpAfterSS_take_succ front n (settlementParams req) hn]
      exact Params.get?_set_self _ _ _
    · rw [qpAfterSS_take_succ front n (settlementParams req) hn]
      exact Params.eraseKey_set_self _ _ _

/-- C4 witness: the canonical two-page run of the spec — page 1 cursored
`"X"`, page 2 the terminal page with cursor `""` — where the mapping of call 2
carries `cursor = "X"` and differs from the mapping of call 1 only there. -/
theorem claim_C4_witness :
    (∀ p ∈ [pageCX3], p.Result.NextPageCursor ≠ "") ∧
    (0 < [pageCX3].length) ∧
    (0 + 1 < [pageCX3].length + [pageReplyCX pageCX2].length) ∧
    (∃ qp1 qp2,
      (GetCoinExchangeRecords reqCX0
        ([pageCX3].map pageReplyCX ++ [pageReplyCX pageCX2])).calls[0]? = some qp1 ∧
      (GetCoinExchangeRecords reqCX0
        ([pageCX3].map pageReplyCX ++ [pageReplyCX pageCX2])).calls[0 + 1]? = some qp2 ∧
      qp2.get? "cursor" = some [pageCX3][0].Result.NextPageCursor ∧
      qp2.eraseKey "cursor" = qp1.eraseKey "cursor") :=
  ⟨by decide, by decide, by decide,
    claim_C4.1 [pageCX3] [pageReplyCX pageCX2] reqCX0 0 (by decide) (by decide) (by decide)⟩

/-- C5 counterexample: the byte form `{}` is missing every field of the page
shape, yet decoding succeeds with zero values (Go `encoding/json` ignores
missing fields) and the aggregation completes without any `DecodeError` —
refuting the claim that missing fields fail the decode step. -/
theorem claim_C5_counterexample :
    unmarshalCoinExchange (.obj []) = .ok ⟨0, "", ⟨[], ""⟩⟩ ∧
    (GetCoinExchangeRecords reqCX0 [.ok (.json (.obj []))]).outcome =
      .done (.ok ⟨0, "OK", ⟨[], ""⟩⟩) :=
  ⟨rfl, rfl⟩

/-- C5 (amended): a page whose byte form has mistyped fields (or is not an
object at all) fails to decode, and any decode failure aborts the whole
aggregation at once with the wrapped error and no records; a byte form that
merely misses fields, however, decodes to zero values without error. -/
theorem claim_C5 :
    (∀ s : String, unmarshalCoinExchange (.obj [("retCode", .str s)]) =
      .error "json: cannot unmarshal value into Go value of type int") ∧
    (∀ s : String, unmarshalCoinExchange (.str s) =
      .error "json: cannot unmarshal value into Go struct GetCoinExchangeRecordsResponse") ∧
    (∀ (front : List GetCoinExchangeRecordsResponse) (rest : Transport)
      (req : GetCoinExchangeRecordsRequest) (j : Json) (e : String),
      (∀ p ∈ front, p.Result.NextPageCursor ≠ "") →
      unmarshalCoinExchange j = .error e →
      (GetCoinExchangeRecords req
        (front.map pageReplyCX ++ (.ok (.json j) :: rest))).outcome =
        .done (.error ("error parsing coin exchange records response: " ++ e)) ∧
      (GetCoinExchangeRecords req
        (front.map pageReplyCX ++ (.ok (.json j) :: rest))).calls.length =
        front.length + 1) ∧
    (∀ (front : List GetDeliveryRecordResponse) (rest : Transport)
      (req : GetDeliveryRecordRequest) (j : Json) (e : String),
      (∀ p ∈ front, p.Result.NextPageCursor ≠ "") →
      unmarshalDelivery j = .error e →
      (GetDeliveryRecords req
        (front.map pageReplyDL ++ (.ok (.json j) :: rest))).outcome =
        .done (.error ("error parsing delivery records response: " ++ e)) ∧
      (GetDeliveryRecords req
        (front.map pageReplyDL ++ (.ok (.json j) :: rest))).calls.length =
        front.length + 1) ∧
    (∀ (front : List GetSessionSettlementRecordResponse) (rest : Transport)
      (req : GetSessionSettlementRecordRequest) (j : Json) (e : String),
      (∀ p ∈ front, p.Result.NextPageCursor ≠ "") →
      unmarshalSettlement j = .error e →
      (GetSessionSettlementRecords req
        (front.map pageReplySS ++ (.ok (.json j) :: rest))).outcome =
        .done (.error ("error parsing session settlement records response: " ++ e)) ∧
      (GetSessionSettlementRecords req
        (front.map pageReplySS ++ (.ok (.json j) :: rest))).calls.length =
        front.length + 1) := by
  refine ⟨fun s => rfl, fun s => rfl, ?_, ?_, ?_⟩
  · intro front rest req j e hf hu
    have hgf := coinExLoop_goodFront front (.ok (.json j) :: rest) hf req []
    rw [GetCoinExchangeRecords, hgf]
    constructor
    · simp [coinExLoop, marshalGeneric, hu]
    · simp [coinExLoop, marshalGeneric, hu]
  · intro front rest req j e hf hu
    have hgf := deliveryLoop_goodFront front (.ok (.json j) :: rest) hf req []
    rw [GetDeliveryRecords, hgf]
    constructor
    · simp [deliveryLoop, marshalGeneric, hu]
    · simp [deliveryLoop, marshalGeneric, hu]
  · intro front rest req j e hf hu
    have hgf := settlementLoop_goodFront front (.ok (.json j) :: rest) hf
      (settlementParams req) []
    constructor
    · show (settlementLoop (front.map pageReplySS ++ (.ok (.json j) :: rest))
        (settlementParams req) []).fst = _
      rw [hgf]
      simp [settlementLoop, marshalGeneric, hu]
    · show (settlementLoop (front.map pageReplySS ++ (.ok (.json j) :: rest))
        (settlementParams req) []).snd.length = _
      rw [hgf]
      simp [settlementLoop, marshalGeneric, hu]

/-- C5 witness: a first page whose byte form is the string `"x"` mistypes the
whole envelope; the aggregation aborts at once with the wrapped decode error. -/
theorem claim_C5_witness :
    (∀ p ∈ ([] : List GetCoinExchangeRecordsResponse), p.Result.NextPageCursor ≠ "") ∧
    unmarshalCoinExchange (.str "x") =
      .error "json: cannot unmarshal value into Go struct GetCoinExchangeRecordsResponse" ∧
    ((GetCoinExchangeRecords reqCX0
        (([] : List GetCoinExchangeRecordsResponse).map pageReplyCX ++
          (.ok (.json (.str "x")) :: []))).outcome =
      .done (.error ("error parsing coin exchange records response: " ++
        "json: cannot unmarshal value into Go struct GetCoinExchangeRecordsResponse")) ∧
      (GetCoinExchangeRecords reqCX0
        (([] : List GetCoinExchangeRecordsResponse).map pageReplyCX ++
          (.ok (.json (.str "x")) :: []))).calls.length =
        ([] : List GetCoinExchangeRecordsResponse).length + 1) :=
  ⟨by decide, rfl,
    (claim_C5.2).2.1 [] [] reqCX0 (.str "x")
      "json: cannot unmarshal value into Go struct GetCoinExchangeRecordsResponse"
      (by decide) rfl⟩

/-- C9: `GetCoinExchangeRecords` and `GetDeliveryRecords` write each non-empty
page cursor through the caller's request pointer, so after a multi-page call
the request keeps the last non-empty cursor (other fields untouched);
`GetSessionSettlementRecords` never modifies the caller's request. -/
theorem claim_C9 :
    (∀ (front : List GetCoinExchangeRecordsResponse)
      (plast lastPage : GetCoinExchangeRecordsResponse) (rest : Transport)
      (req : GetCoinExchangeRecordsRequest),
      (∀ p ∈ front ++ [plast], p.Result.NextPageCursor ≠ "") →
      lastPage.Result.NextPageCursor = "" →
      ((GetCoinExchangeRecords req
        (((front ++ [plast]) ++ [lastPage]).map pageReplyCX ++ rest)).finalReq.FromCoin =
          req.FromCoin ∧
       (GetCoinExchangeRecords req
        (((front ++ [plast]) ++ [lastPage]).map pageReplyCX ++ rest)).finalReq.ToCoin =
          req.ToCoin ∧
       (GetCoinExchangeRecords req
        (((front ++ [plast]) ++ [lastPage]).map pageReplyCX ++ rest)).finalReq.Limit =
          req.Limit ∧
       (GetCoinExchangeRecords req
        (((front ++ [plast]) ++ [lastPage]).map pageReplyCX ++ rest)).finalReq.Cursor =
          some plast.Result.NextPageCursor)) ∧
    (∀ (front : List GetDeliveryRecordResponse)
      (plast lastPage : GetDeliveryRecordResponse) (rest : Transport)
      (req : GetDeliveryRecordRequest),
      (∀ p ∈ front ++ [plast], p.Result.NextPageCursor ≠ "") →
      lastPage.Result.NextPageCursor = "" →
      ((GetDeliveryRecords req
        (((front ++ [plast]) ++ [lastPage]).map pageReplyDL ++ rest)).finalReq.Category =
          req.Category ∧
       (GetDeliveryRecords req
        (((front ++ [plast]) ++ [lastPage]).map pageReplyDL ++ rest)).finalReq.Symbol =
          req.Symbol ∧
       (GetDeliveryRecords req
        (((front ++ [plast]) ++ [lastPage]).map pageReplyDL ++ rest)).finalReq.StartTime =
          req.StartTime ∧
       (GetDeliveryRecords req
        (((front ++ [plast]) ++ [lastPage]).map pageReplyDL ++ rest)).finalReq.EndTime =
          req.EndTime ∧
       (GetDeliveryRecords req
        (((front ++ [plast]) ++ [lastPage]).map pageReplyDL ++ rest)).finalReq.ExpDate =
          req.ExpDate ∧
       (GetDeliveryRecords req
        (((front ++ [plast]) ++ [lastPage]).map pageReplyDL ++ rest)).finalReq.Limit =
          req.Limit ∧
       (GetDeliveryRecords req
        (((front ++ [plast]) ++ [lastPage]).map pageReplyDL ++ rest)).finalReq.Cursor =
          some plast.Result.NextPageCursor)) ∧
    (∀ (replies : Transport) (req : GetSessionSettlementRecordRequest),
      (GetSessionSettlementRecords req replies).finalReq = req) := by
  refine ⟨?_, ?_, fun replies req => rfl⟩
  · intro front plast lastPage rest req hf hl
    have harr : ((front ++ [plast]) ++ [lastPage]).map pageReplyCX ++ rest =
        (front ++ [plast]).map pageReplyCX ++ (pageReplyCX lastPage :: rest) := by
      simp [List.map_append]
    have hgf := coinExLoop_goodFront (front ++ [plast]) (pageReplyCX lastPage :: rest)
      hf req []
    have hfin : (GetCoinExchangeRecords req
        (((front ++ [plast]) ++ [lastPage]).map pageReplyCX ++ rest)).finalReq =
        reqAfterCX (front ++ [plast]) req := by
      rw [GetCoinExchangeRecords, harr, hgf]
      simp [coinExLoop, pageReplyCX, marshalGeneric, hl]
    rw [hfin, reqAfterCX_append front [plast] req]
    obtain ⟨h1, h2, h3⟩ := reqAfterCX_fields front req
    exact ⟨by simpa [reqAfterCX] using h1, by simpa [reqAfterCX] using h2,
      by simpa [reqAfterCX] using h3, by simp [reqAfterCX]⟩
  · intro front plast lastPage rest req hf hl
    have harr : ((front ++ [plast]) ++ [lastPage]).map pageReplyDL ++ rest =
        (front ++ [plast]).map pageReplyDL ++ (pageReplyDL lastPage :: rest) := by
      simp [List.map_append]
    have hgf := deliveryLoop_goodFront (front ++ [plast]) (pageReplyDL lastPage :: rest)
      hf req []
    have hfin : (GetDeliveryRecords req
        (((front ++ [plast]) ++ [lastPage]).map pageReplyDL ++ rest)).finalReq =
        reqAfterDL (front ++ [plast]) req := by
      rw [GetDeliveryRecords, harr, hgf]
      simp [deliveryLoop, pageReplyDL, marshalGeneric, hl]
    rw [hfin, reqAfterDL_append front [plast] req]
    obtain ⟨h1, h2, h3, h4, h5, h6⟩ := reqAfterDL_fields front req
    exact ⟨by simpa [reqAfterDL] using h1, by simpa [reqAfterDL] using h2,
      by simpa [reqAfterDL] using h3, by simpa [reqAfterDL] using h4,
      by simpa [reqAfterDL] using h5, by simpa [reqAfterDL] using h6,
      by simp [reqAfterDL]⟩

/-- C9 witness: after pages cursored `"X"` then `""`, the caller's
coin-exchange request holds `Cursor = some "X"` and no other field changed. -/
theorem claim_C9_witness :
    (∀ p ∈ ([] : List GetCoinExchangeRecordsResponse) ++ [pageCX3],
      p.Result.NextPageCursor ≠ "") ∧
    pageCX2.Result.NextPageCursor = "" ∧
    ((GetCoinExchangeRecords reqCX0
      ((([] ++ [pageCX3]) ++ [pageCX2]).map pageReplyCX ++ [])).finalReq.FromCoin =
        reqCX0.FromCoin ∧
     (GetCoinExchangeRecords reqCX0
      ((([] ++ [pageCX3]) ++ [pageCX2]).map pageReplyCX ++ [])).finalReq.ToCoin =
        reqCX0.ToCoin ∧
     (GetCoinExchangeRecords reqCX0
      ((([] ++ [pageCX3]) ++ [pageCX2]).map pageReplyCX ++ [])).finalReq.Limit =
        reqCX0.Limit ∧
     (GetCoinExchangeRecords reqCX0
      ((([] ++ [pageCX3]) ++ [pageCX2]).map pageReplyCX ++ [])).finalReq.Cursor =
        some pageCX3.Result.NextPageCursor) :=
  ⟨by decide, rfl, claim_C9.1 [] pageCX3 pageCX2 [] reqCX0 (by decide) rfl⟩

end CryptoSDK
